import Mathlib

/-!
# bk-cmdb: host topology listing and schema migrators

A shallow embedding of

* `ListBizHostsTopo` (`src/scene_server/host_server/service/findhost.go`),
* `dropVersionColumn` / `dropSetTplVersionColumn`
  (`src/scene_server/admin_server/upgrader/y3.9.202106301723/drop_set_template_version_column.go`),
* `addCloudIDIndex`
  (`src/scene_server/admin_server/upgrader/x20.10.16.11/add_cloudid_index.go`).

Identifiers are Go `int64` values; they are only compared and copied, never
computed with, so they are embedded as `Int`.  Collaborators that live outside
these three files (the storage layer, `util.GetInt64ByInterface`, the `mapstr`
accessors, `util.IntArrayUnique`, the string constants of package `common`) are
parameters of the embedding.
-/

namespace CMDB

/-! ## Generic records -/

/-- Go `error` values are only passed along by the embedded code. -/
structure Err where
  msg : String
  deriving DecidableEq, Repr

/-- A loosely typed field value (Go `interface{}`).  `other` stands for every
dynamic type the embedded code never inspects itself. -/
inductive Value where
  | null
  | int (n : Int)
  | str (s : String)
  | other (tag : Nat)
  deriving DecidableEq, Repr

/-- A generic record, `map[string]interface{}` (`mapstr.MapStr`). -/
structure MapStr where
  fields : List (String × Value)
  deriving DecidableEq, Repr

/-- Indexing `m[key]`: `none` is Go's nil interface for a missing key. -/
def MapStr.get (m : MapStr) (key : String) : Option Value :=
  m.fields.lookup key

/-- Whether the record has the key at all. -/
def MapStr.has (m : MapStr) (key : String) : Bool :=
  (m.get key).isSome

/-- A Go map with the keys in insertion order.  Go leaves the iteration order
of `range` unspecified; iteration goes through `HostEnv.rangeOrder`. -/
structure GoMap (K V : Type) where
  entries : List (K × V)
  deriving DecidableEq, Repr

namespace GoMap

variable {K V : Type} [DecidableEq K]

/-- The result of `make(map[K]V)`. -/
def empty : GoMap K V := ⟨[]⟩

/-- The two-valued index expression `v, ok := m[k]`. -/
def get? (m : GoMap K V) (k : K) : Option V :=
  m.entries.lookup k

/-- The one-valued index expression `m[k]`, `zero` being the zero value of `V`. -/
def getD (m : GoMap K V) (k : K) (zero : V) : V :=
  (m.get? k).getD zero

/-- The assignment `m[k] = v`. -/
def set (m : GoMap K V) (k : K) (v : V) : GoMap K V :=
  match m.get? k with
  | some _ => ⟨m.entries.map (fun p => if p.1 = k then (k, v) else p)⟩
  | none => ⟨m.entries ++ [(k, v)]⟩

/-- The keys of the map. -/
def keys (m : GoMap K V) : List K :=
  m.entries.map Prod.fst

end GoMap

/-- The constants of package `configcenter/src/common` the embedded code names.
Their values are declared outside the three source files. -/
structure Common where
  BKHostIDField : String
  BKSetIDField : String
  BKModuleIDField : String
  BKSetNameField : String
  BKModuleNameField : String
  BKInnerObjIDSet : String
  BKInnerObjIDModule : String
  BKFieldID : String
  BKSetTemplateVersionField : String
  BKCloudIDField : String
  BKTableNameSetTemplate : String
  BKTableNameBaseSet : String
  BKTableNameBaseHost : String
  BKTableNameBasePlat : String
  deriving DecidableEq, Repr

/-- Query filters the embedded code builds: `{field: {$exists: true}}` and
`{field: {$in: ids}}`. -/
inductive Filter where
  | fieldExists (field : String)
  | fieldIn (field : String) (ids : List Int)
  deriving DecidableEq, Repr

/-! ## `ListBizHostsTopo` -/

/-- The result `meta.ListHostResult` of the host listing. -/
structure ListHostResult where
  Count : Int
  Info : List MapStr
  deriving DecidableEq, Repr

/-- The fields of `meta.ModuleHost` the handler reads. -/
structure ModuleHost where
  HostID : Int
  SetID : Int
  ModuleID : Int
  deriving DecidableEq, Repr

/-- The request `meta.HostModuleRelationRequest` as the handler fills it. -/
structure HostModuleRelationRequest where
  ApplicationID : Int
  HostIDArr : List Int
  Fields : List String
  deriving DecidableEq, Repr

/-- The query `meta.QueryCondition` as the handler fills it. -/
structure QueryCondition where
  Fields : List String
  Condition : Filter
  deriving DecidableEq, Repr

/-- The entry `meta.Module` of a topology group. -/
structure Module where
  ModuleID : Int
  ModuleName : String
  deriving DecidableEq, Repr

/-- The topology group `meta.Topo`. -/
structure Topo where
  SetID : Int
  SetName : String
  Module : List Module
  deriving DecidableEq, Repr

/-- The per-host entry `meta.HostTopo`. -/
structure HostTopo where
  Host : MapStr
  Topo : List Topo
  deriving DecidableEq, Repr

/-- The payload `meta.HostTopoResult`. -/
structure HostTopoResult where
  Count : Int
  Info : List HostTopo
  deriving DecidableEq, Repr

/-- What the handler writes: `resp.WriteError(status, &meta.RespError{Msg: err})`,
or `meta.NewSuccessResponse` of the host listing (empty page) or of the
assembled topology. -/
inductive Response where
  | error (status : Nat) (err : Err)
  | successHosts (data : ListHostResult)
  | successTopo (data : HostTopoResult)
  deriving DecidableEq, Repr

/-- The value of `http.StatusInternalServerError`. -/
def StatusInternalServerError : Nat := 500

/-- The collaborators of `ListBizHostsTopo`.  `rangeOrder n` is the order in
which the `n`-th `range` over a host's set map visits the entries; like Go, it
visits every entry exactly once (`rangeOrder_perm`) and promises nothing else. -/
structure HostEnv where
  common : Common
  GetInt64ByInterface : Option Value → Int × Option Err
  MapStrInt64 : MapStr → String → Except Err Int
  MapStrString : MapStr → String → Except Err String
  IntArrayUnique : List Int → List Int
  GetConfigByCond : HostModuleRelationRequest → Except Err (List ModuleHost)
  ReadInstance : String → QueryCondition → Except Err (List MapStr)
  rangeOrder : Nat → List (Int × List Int) → List (Int × List Int)
  rangeOrder_perm : ∀ n m, (rangeOrder n m).Perm m

/-- Lines 239-248: the host ids of the page, or the first coercion error. -/
def collectHostIDs (env : HostEnv) (hosts : List MapStr) : Except Err (List Int) :=
  hosts.foldlM (fun hostIDs host =>
    match env.GetInt64ByInterface (host.get env.common.BKHostIDField) with
    | (_, some err) => Except.error err
    | (hostID, none) => Except.ok (hostIDs ++ [hostID])) []

/-- The three accumulators of the loop at lines 262-276. -/
structure RelationAcc where
  setIDs : List Int
  moduleIDs : List Int
  relation : GoMap Int (GoMap Int (List Int))
  deriving DecidableEq, Repr

/-- One iteration of the loop at lines 265-276. -/
def foldRelation (acc : RelationAcc) (r : ModuleHost) : RelationAcc :=
  { setIDs := acc.setIDs ++ [r.SetID]
    moduleIDs := acc.moduleIDs ++ [r.ModuleID]
    relation :=
      match acc.relation.get? r.HostID with
      | some setModule =>
        acc.relation.set r.HostID
          (setModule.set r.SetID (setModule.getD r.SetID [] ++ [r.ModuleID]))
      | none =>
        acc.relation.set r.HostID
          ((GoMap.empty : GoMap Int (List Int)).set r.SetID
            ((GoMap.empty : GoMap Int (List Int)).getD r.SetID [] ++ [r.ModuleID])) }

/-- Lines 262-276: the relation fold over all rows. -/
def foldRelations (relations : List ModuleHost) : RelationAcc :=
  relations.foldl foldRelation ⟨[], [], GoMap.empty⟩

/-- Lines 291-306: the set id to set name mapping, or the first coercion error. -/
def buildSetMap (env : HostEnv) (sets : List MapStr) : Except Err (GoMap Int String) :=
  sets.foldlM (fun setMap set =>
    match env.MapStrInt64 set env.common.BKSetIDField with
    | Except.error err => Except.error err
    | Except.ok setID =>
      match env.MapStrString set env.common.BKSetNameField with
      | Except.error err => Except.error err
      | Except.ok setName => Except.ok (setMap.set setID setName)) GoMap.empty

/-- Lines 319-334: the module id to module name mapping, or the first
coercion error. -/
def buildModuleMap (env : HostEnv) (modules : List MapStr) : Except Err (GoMap Int String) :=
  modules.foldlM (fun moduleMap module =>
    match env.MapStrInt64 module env.common.BKModuleIDField with
    | Except.error err => Except.error err
    | Except.ok moduleID =>
      match env.MapStrString module env.common.BKModuleNameField with
      | Except.error err => Except.error err
      | Except.ok moduleName => Except.ok (moduleMap.set moduleID moduleName)) GoMap.empty

/-- Lines 352-359: the module entries of one group. -/
def buildModules (moduleMap : GoMap Int String) (moduleIDs : List Int) : List Module :=
  moduleIDs.foldl (fun modules moduleID =>
    modules ++ [{ ModuleID := moduleID, ModuleName := moduleMap.getD moduleID "" }]) []

/-- Lines 344-363: the groups of one host; `n` counts the entries emitted
before this host. -/
def buildTopos (env : HostEnv) (relation : GoMap Int (GoMap Int (List Int)))
    (setMap moduleMap : GoMap Int String) (n : Nat) (host : MapStr) : List Topo :=
  let hostID := (env.GetInt64ByInterface (host.get env.common.BKHostIDField)).1
  match relation.get? hostID with
  | some setModule =>
    (env.rangeOrder n setModule.entries).foldl (fun topos entry =>
      topos ++ [{ SetID := entry.1, SetName := setMap.getD entry.1 "",
                  Module := buildModules moduleMap entry.2 }]) []
  | none => []

/-- Lines 337-366: the payload assembled over the host page. -/
def formatOutput (env : HostEnv) (hosts : ListHostResult)
    (relation : GoMap Int (GoMap Int (List Int))) (setMap moduleMap : GoMap Int String) :
    HostTopoResult :=
  { Count := hosts.Count
    Info := hosts.Info.foldl (fun info host =>
      info ++ [{ Host := host,
                 Topo := buildTopos env relation setMap moduleMap info.length host }]) [] }

/-- The relation request of lines 249-253. -/
def relationCond (env : HostEnv) (bizID : Int) (hostIDs : List Int) :
    HostModuleRelationRequest :=
  { ApplicationID := bizID
    HostIDArr := hostIDs
    Fields := [env.common.BKSetIDField, env.common.BKModuleIDField, env.common.BKHostIDField] }

/-- The set query of lines 280-284. -/
def setQuery (env : HostEnv) (setIDs : List Int) : QueryCondition :=
  { Fields := [env.common.BKSetIDField, env.common.BKSetNameField]
    Condition := Filter.fieldIn env.common.BKSetIDField setIDs }

/-- The module query of lines 308-312. -/
def moduleQuery (env : HostEnv) (moduleIDs : List Int) : QueryCondition :=
  { Fields := [env.common.BKModuleIDField, env.common.BKModuleNameField]
    Condition := Filter.fieldIn env.common.BKModuleIDField moduleIDs }

/-- The handler `ListBizHostsTopo` from line 232 on: `hosts` is the successful
result of the host listing of line 225, `bizID` the validated path parameter. -/
def ListBizHostsTopo (env : HostEnv) (bizID : Int) (hosts : ListHostResult) : Response :=
  if hosts.Info.length = 0 then
    Response.successHosts hosts
  else
    match collectHostIDs env hosts.Info with
    | Except.error err => Response.error StatusInternalServerError err
    | Except.ok hostIDs =>
      match env.GetConfigByCond (relationCond env bizID hostIDs) with
      | Except.error err => Response.error StatusInternalServerError err
      | Except.ok relations =>
        let acc := foldRelations relations
        let setIDs := env.IntArrayUnique acc.setIDs
        let moduleIDs := env.IntArrayUnique acc.moduleIDs
        match env.ReadInstance env.common.BKInnerObjIDSet (setQuery env setIDs) with
        | Except.error err => Response.error StatusInternalServerError err
        | Except.ok sets =>
          match buildSetMap env sets with
          | Except.error err => Response.error StatusInternalServerError err
          | Except.ok setMap =>
            match env.ReadInstance env.common.BKInnerObjIDModule (moduleQuery env moduleIDs) with
            | Except.error err => Response.error StatusInternalServerError err
            | Except.ok modules =>
              match buildModuleMap env modules with
              | Except.error err => Response.error StatusInternalServerError err
              | Except.ok moduleMap =>
                Response.successTopo (formatOutput env hosts acc.relation setMap moduleMap)

/-! ### A concrete scenario -/

/-- Sample values for the constants of package `common`. -/
def sampleCommon : Common :=
  { BKHostIDField := "bk_host_id"
    BKSetIDField := "bk_set_id"
    BKModuleIDField := "bk_module_id"
    BKSetNameField := "bk_set_name"
    BKModuleNameField := "bk_module_name"
    BKInnerObjIDSet := "set"
    BKInnerObjIDModule := "module"
    BKFieldID := "id"
    BKSetTemplateVersionField := "set_template_version"
    BKCloudIDField := "bk_cloud_id"
    BKTableNameSetTemplate := "cc_SetTemplate"
    BKTableNameBaseSet := "cc_SetBase"
    BKTableNameBaseHost := "cc_HostBase"
    BKTableNameBasePlat := "cc_PlatBase" }

/-- A sample integer coercion: integers pass, everything else is refused. -/
def sampleGetInt64 : Option Value → Int × Option Err
  | some (Value.int n) => (n, none)
  | _ => (0, some ⟨"not numeric"⟩)

/-- A sample `mapstr.MapStr.Int64`. -/
def sampleInt64 (m : MapStr) (key : String) : Except Err Int :=
  match m.get key with
  | some (Value.int n) => Except.ok n
  | _ => Except.error ⟨"not int64"⟩

/-- A sample `mapstr.MapStr.String`. -/
def sampleString (m : MapStr) (key : String) : Except Err String :=
  match m.get key with
  | some (Value.str s) => Except.ok s
  | _ => Except.error ⟨"not string"⟩

/-- A sample environment over fixed relation rows, set records and module
records; every `range` visits the entries in insertion order. -/
def sampleEnv (rows : List ModuleHost) (sets modules : List MapStr) : HostEnv :=
  { common := sampleCommon
    GetInt64ByInterface := sampleGetInt64
    MapStrInt64 := sampleInt64
    MapStrString := sampleString
    IntArrayUnique := List.dedup
    GetConfigByCond := fun _ => Except.ok rows
    ReadInstance := fun objID _ => if objID = "set" then Except.ok sets else Except.ok modules
    rangeOrder := fun _ m => m
    rangeOrder_perm := fun _ m => List.Perm.refl m }

/-- A host record with the given host id. -/
def mkHost (hostID : Int) : MapStr := ⟨[("bk_host_id", Value.int hostID)]⟩

/-- A set record. -/
def mkSet (setID : Int) (name : String) : MapStr :=
  ⟨[("bk_set_id", Value.int setID), ("bk_set_name", Value.str name)]⟩

/-- A module record. -/
def mkModule (moduleID : Int) (name : String) : MapStr :=
  ⟨[("bk_module_id", Value.int moduleID), ("bk_module_name", Value.str name)]⟩

/-- The end-to-end scenario: relation rows. -/
def scenarioRows : List ModuleHost := [⟨1, 10, 100⟩, ⟨1, 10, 101⟩, ⟨2, 20, 200⟩]

/-- The end-to-end scenario: the set records the set lookup returns. -/
def scenarioSets : List MapStr := [mkSet 10 "SetA", mkSet 20 "SetB"]

/-- The end-to-end scenario: the module records the module lookup returns. -/
def scenarioModules : List MapStr :=
  [mkModule 100 "Mod1", mkModule 101 "Mod2", mkModule 200 "Mod3"]

/-- The end-to-end scenario: the set name mapping. -/
def scenarioSetMap : GoMap Int String := ⟨[(10, "SetA"), (20, "SetB")]⟩

/-- The end-to-end scenario: the module name mapping. -/
def scenarioModuleMap : GoMap Int String := ⟨[(100, "Mod1"), (101, "Mod2"), (200, "Mod3")]⟩

/-- The end-to-end scenario: the environment. -/
def scenarioEnv : HostEnv :=
  sampleEnv scenarioRows scenarioSets scenarioModules

/-- The end-to-end scenario: the host page. -/
def scenarioHosts : ListHostResult := ⟨2, [mkHost 1, mkHost 2]⟩

/-- A page whose second host carries a host id that is not numeric. -/
def scenarioBadHosts : ListHostResult :=
  ⟨2, [mkHost 1, ⟨[("bk_host_id", Value.str "x")]⟩]⟩

/-- A page whose second host has no relation row in the scenario. -/
def scenarioLoneHosts : ListHostResult := ⟨3, [mkHost 1, mkHost 3]⟩

/-- The scenario with name lookups that know no set and no module. -/
def scenarioNamelessEnv : HostEnv := sampleEnv scenarioRows [] []

/-! ## The storage layer as the migrators see it -/

/-- The index specification `dal.Index`. -/
structure Index where
  Keys : List (String × Int)
  Name : String
  Unique : Bool
  Background : Bool
  deriving DecidableEq, Repr

/-- The storage collaborator `dal.RDB` over a store state `σ`.  Every operation
may fail and may leave the store in another state.
`Find s table filter fields start limit` is
`db.Table(table).Find(filter).Fields(fields...).Start(start).Limit(limit).All(...)`. -/
structure RDB (σ : Type) where
  Find : σ → String → Filter → List String → Nat → Nat → Except Err (List MapStr) × σ
  DropColumns : σ → String → Filter → List String → Option Err × σ
  CreateIndex : σ → String → Index → Option Err × σ

/-- A call on the storage layer together with what it returned. -/
inductive Event where
  | find (table : String) (filter : Filter) (fields : List String) (start limit : Nat)
      (result : Except Err (List MapStr))
  | dropColumns (table : String) (filter : Filter) (columns : List String)
      (result : Option Err)
  | createIndex (table : String) (idx : Index) (result : Option Err)

/-- How a run ended: the function returned (`nil` or an error), or the bound on
the number of loop iterations was reached with the loop still going. -/
inductive Outcome where
  | returned (err : Option Err)
  | running
  deriving DecidableEq, Repr

/-- A run of a migrator: its outcome, the store it leaves, and the calls it
made on the storage layer, in order. -/
structure Run (σ : Type) where
  outcome : Outcome
  store : σ
  trace : List Event

/-- The run `r` preceded by the calls `events`. -/
def Run.after {σ : Type} (events : List Event) (r : Run σ) : Run σ :=
  { r with trace := events ++ r.trace }

/-- The page size `const step = 5000`. -/
def step : Nat := 5000

/-- Lines 35-43 (and 77-85): a slice of the page's length is filled, index by
index, with the coerced identifiers; the first coercion error is returned. -/
def collectIDs (GetInt64ByInterface : Option Value → Int × Option Err) (idField : String)
    (records : List MapStr) : Except Err (List Int) :=
  records.enum.foldlM (fun ids entry =>
    match GetInt64ByInterface (entry.2.get idField) with
    | (_, some err) => Except.error err
    | (id, none) => Except.ok (ids.set entry.1 id)) (List.replicate records.length 0)

/-- The loop shared, up to the names of the table, of the dropped field and of
the identifier field, by `dropVersionColumn` (lines 22-52) and
`dropSetTplVersionColumn` (lines 64-95).  The first argument bounds the number
of iterations. -/
def dropColumnLoop {σ : Type} (db : RDB σ)
    (GetInt64ByInterface : Option Value → Int × Option Err)
    (table versionField idField : String) : Nat → σ → Run σ
  | 0, s => ⟨Outcome.running, s, []⟩
  | fuel + 1, s =>
    let existsVersionFilter := Filter.fieldExists versionField
    match db.Find s table existsVersionFilter [idField] 0 step with
    | (Except.error err, s1) =>
      ⟨Outcome.returned (some err), s1,
        [Event.find table existsVersionFilter [idField] 0 step (Except.error err)]⟩
    | (Except.ok records, s1) =>
      let found := Event.find table existsVersionFilter [idField] 0 step (Except.ok records)
      if records.length = 0 then
        ⟨Outcome.returned none, s1, [found]⟩
      else
        match collectIDs GetInt64ByInterface idField records with
        | Except.error err => ⟨Outcome.returned (some err), s1, [found]⟩
        | Except.ok ids =>
          let filter := Filter.fieldIn idField ids
          match db.DropColumns s1 table filter [versionField] with
          | (some err, s2) =>
            ⟨Outcome.returned (some err), s2,
              [found, Event.dropColumns table filter [versionField] (some err)]⟩
          | (none, s2) =>
            (dropColumnLoop db GetInt64ByInterface table versionField idField fuel s2).after
              [found, Event.dropColumns table filter [versionField] none]

/-- The collaborators of the migrators. -/
structure MigrateEnv (σ : Type) where
  common : Common
  db : RDB σ
  GetInt64ByInterface : Option Value → Int × Option Err
  IsDuplicatedIndexErr : Err → Bool

/-- The migrator `dropVersionColumn`, run for at most `fuel` iterations. -/
def dropVersionColumn {σ : Type} (env : MigrateEnv σ) (fuel : Nat) (s : σ) : Run σ :=
  dropColumnLoop env.db env.GetInt64ByInterface env.common.BKTableNameSetTemplate "version"
    env.common.BKFieldID fuel s

/-- The migrator `dropSetTplVersionColumn`, run for at most `fuel` iterations. -/
def dropSetTplVersionColumn {σ : Type} (env : MigrateEnv σ) (fuel : Nat) (s : σ) : Run σ :=
  dropColumnLoop env.db env.GetInt64ByInterface env.common.BKTableNameBaseSet
    env.common.BKSetTemplateVersionField env.common.BKSetIDField fuel s

/-- The index `idx` of `addCloudIDIndex` (lines 27-34). -/
def cloudIDIndex (common : Common) : Index :=
  { Keys := [(common.BKCloudIDField, 1)]
    Name := "bk_cloud_id_1"
    Unique := false
    Background := true }

/-- Lines 43-50 of `addCloudIDIndex`: the index on the cloud-area table. -/
def addCloudIDIndexPlat {σ : Type} (env : MigrateEnv σ) (s : σ) : Run σ :=
  let idx := cloudIDIndex env.common
  match env.db.CreateIndex s env.common.BKTableNameBasePlat idx with
  | (some err, s1) =>
    if !env.IsDuplicatedIndexErr err then
      ⟨Outcome.returned (some err), s1,
        [Event.createIndex env.common.BKTableNameBasePlat idx (some err)]⟩
    else
      ⟨Outcome.returned none, s1,
        [Event.createIndex env.common.BKTableNameBasePlat idx (some err)]⟩
  | (none, s1) =>
    ⟨Outcome.returned none, s1, [Event.createIndex env.common.BKTableNameBasePlat idx none]⟩

/-- The migrator `addCloudIDIndex`. -/
def addCloudIDIndex {σ : Type} (env : MigrateEnv σ) (s : σ) : Run σ :=
  let idx := cloudIDIndex env.common
  match env.db.CreateIndex s env.common.BKTableNameBaseHost idx with
  | (some err, s1) =>
    if !env.IsDuplicatedIndexErr err then
      ⟨Outcome.returned (some err), s1,
        [Event.createIndex env.common.BKTableNameBaseHost idx (some err)]⟩
    else
      (addCloudIDIndexPlat env s1).after
        [Event.createIndex env.common.BKTableNameBaseHost idx (some err)]
  | (none, s1) =>
    (addCloudIDIndexPlat env s1).after
      [Event.createIndex env.common.BKTableNameBaseHost idx none]

/-! ### An in-memory collection -/

/-- The record restricted to the named fields (`Fields(...)` of a query). -/
def MapStr.project (fields : List String) (r : MapStr) : MapStr :=
  ⟨r.fields.filter (fun p => fields.contains p.1)⟩

/-- The record without the named columns. -/
def MapStr.dropColumns (columns : List String) (r : MapStr) : MapStr :=
  ⟨r.fields.filter (fun p => !columns.contains p.1)⟩

/-- Whether a record matches a filter; the identifier of a record under
`field` is what `GetInt64ByInterface` makes of that field. -/
def memMatches (GetInt64ByInterface : Option Value → Int × Option Err) :
    Filter → MapStr → Bool
  | Filter.fieldExists field, r => r.has field
  | Filter.fieldIn field ids, r =>
    match GetInt64ByInterface (r.get field) with
    | (id, none) => ids.contains id
    | (_, some _) => false

/-- Modelled from the spec: the storage layer (`configcenter/src/storage/dal`)
is not among the sources.  One collection held in memory: `Find` never fails and
returns, from offset `start`, up to `limit` of the records matching the filter,
restricted to the requested fields; `DropColumns` never fails and removes the
columns from exactly the records matching the filter; `CreateIndex` does
nothing. -/
def memRDB (GetInt64ByInterface : Option Value → Int × Option Err) : RDB (List MapStr) :=
  { Find := fun s _ filter fields start limit =>
      (Except.ok ((((s.filter (memMatches GetInt64ByInterface filter)).drop start).take
        limit).map (MapStr.project fields)), s)
    DropColumns := fun s _ filter columns =>
      (none, s.map (fun r =>
        if memMatches GetInt64ByInterface filter r then r.dropColumns columns else r))
    CreateIndex := fun s _ _ => (none, s) }

/-- The migrators' environment over the in-memory collection. -/
def memEnv (common : Common) (GetInt64ByInterface : Option Value → Int × Option Err) :
    MigrateEnv (List MapStr) :=
  { common := common
    db := memRDB GetInt64ByInterface
    GetInt64ByInterface := GetInt64ByInterface
    IsDuplicatedIndexErr := fun _ => false }

/-- The sizes of the pages the fetches of a trace returned, in order. -/
def fetchSizes : List Event → List Nat
  | [] => []
  | Event.find _ _ _ _ _ (Except.ok records) :: rest => records.length :: fetchSizes rest
  | Event.find _ _ _ _ _ (Except.error _) :: rest => fetchSizes rest
  | _ :: rest => fetchSizes rest

/-- The number of `Find` calls of a trace. -/
def fetchCount : List Event → Nat
  | [] => 0
  | Event.find _ _ _ _ _ _ :: rest => fetchCount rest + 1
  | _ :: rest => fetchCount rest

/-- The number of `DropColumns` calls of a trace. -/
def dropCount : List Event → Nat
  | [] => 0
  | Event.dropColumns _ _ _ _ :: rest => dropCount rest + 1
  | _ :: rest => dropCount rest

/-- The records of a collection that still carry the field. -/
def pending (field : String) (s : List MapStr) : List MapStr :=
  s.filter (fun r => r.has field)

/-- A record with identifier `id` under `idField` that carries `versionField`. -/
def mkVersioned (idField versionField : String) (id : Int) : MapStr :=
  ⟨[(idField, Value.int id), (versionField, Value.int 3)]⟩

/-- A collection of `n` records with identifiers `0 .. n - 1`, each one carrying
`versionField`. -/
def versionedRecords (idField versionField : String) (n : Nat) : List MapStr :=
  (List.range n).map (fun i => mkVersioned idField versionField (Int.ofNat i))

/-- A collection of `n` set templates, each one carrying a `version`. -/
def setTemplates (n : Nat) : List MapStr :=
  versionedRecords sampleCommon.BKFieldID "version" n

/-- A collection of `n` sets, each one carrying a set template version. -/
def setRecords (n : Nat) : List MapStr :=
  versionedRecords sampleCommon.BKSetIDField sampleCommon.BKSetTemplateVersionField n

/-- Whether the result of a `CreateIndex` is an error other than the
duplicate-index error, as `addCloudIDIndex` tests it (lines 36-37, 43-44). -/
def Fatal {σ : Type} (env : MigrateEnv σ) (result : Option Err) : Prop :=
  ∃ err, result = some err ∧ env.IsDuplicatedIndexErr err = false

/-- The duplicate-index error of the in-memory index store. -/
def duplicateIndexErr : Err := ⟨"index already exists"⟩

/-- Modelled from the spec: the storage layer (`configcenter/src/storage/dal`)
is not among the sources.  The store is the list of (table, index name) pairs
created so far; `CreateIndex` answers with the duplicate-index error when the
table already has an index of that name and records the index otherwise. -/
def memIndexRDB : RDB (List (String × String)) :=
  { Find := fun s _ _ _ _ _ => (Except.ok [], s)
    DropColumns := fun s _ _ _ => (none, s)
    CreateIndex := fun s table idx =>
      if (table, idx.Name) ∈ s then (some duplicateIndexErr, s)
      else (none, s ++ [(table, idx.Name)]) }

/-- The migrators' environment over the in-memory index store. -/
def memIndexEnv (common : Common) : MigrateEnv (List (String × String)) :=
  { common := common
    db := memIndexRDB
    GetInt64ByInterface := sampleGetInt64
    IsDuplicatedIndexErr := fun err => decide (err = duplicateIndexErr) }

/-- The discipline of the batched loop, read off the trace of a run `r` of at
most `fuel` iterations over the table `table`, the dropped field `versionField`
and the identifier field `idField`:
* a run that returned `nil` ends with a fetch that returned no record;
* every fetch asks for offset 0 and limit `step`, on the same table and filter;
* a fetch that returned no record ends the run with `nil` at once;
* a fetch that returned a non-empty page ends the run with the coercion error
  if an identifier does not coerce, and is otherwise followed by one
  `DropColumns` on exactly the coerced identifiers; a failing `DropColumns` ends
  the run with its error, a successful one is followed by the next fetch, the
  one exception being the `DropColumns` that closes the last of the `fuel`
  iterations the bound allows;
* a failed fetch ends the run with its error. -/
def LoopDiscipline {σ : Type} (GetInt64ByInterface : Option Value → Int × Option Err)
    (table versionField idField : String) (fuel : Nat) (r : Run σ) : Prop :=
  (r.outcome = Outcome.returned none →
    ∃ before, r.trace = before ++
      [Event.find table (Filter.fieldExists versionField) [idField] 0 step (Except.ok [])]) ∧
  (∀ (i : Nat) tbl flt flds st lim res,
    r.trace[i]? = some (Event.find tbl flt flds st lim res) →
      tbl = table ∧ flt = Filter.fieldExists versionField ∧ flds = [idField] ∧
      st = 0 ∧ lim = step) ∧
  (∀ i : Nat,
    r.trace[i]? = some
      (Event.find table (Filter.fieldExists versionField) [idField] 0 step (Except.ok [])) →
      r.outcome = Outcome.returned none ∧ r.trace.length = i + 1) ∧
  (∀ (i : Nat) (page : List MapStr),
    r.trace[i]? = some
      (Event.find table (Filter.fieldExists versionField) [idField] 0 step (Except.ok page)) →
    page ≠ [] →
      (∀ e, collectIDs GetInt64ByInterface idField page = Except.error e →
        r.outcome = Outcome.returned (some e) ∧ r.trace.length = i + 1) ∧
      (∀ ids, collectIDs GetInt64ByInterface idField page = Except.ok ids →
        ∃ dropped, r.trace[i + 1]? = some
            (Event.dropColumns table (Filter.fieldIn idField ids) [versionField] dropped) ∧
          (∀ e, dropped = some e →
            r.outcome = Outcome.returned (some e) ∧ r.trace.length = i + 2) ∧
          (dropped = none →
            (∃ res, r.trace[i + 2]? = some
              (Event.find table (Filter.fieldExists versionField) [idField] 0 step res)) ∨
            (r.outcome = Outcome.running ∧ r.trace.length = i + 2 ∧ i + 2 = 2 * fuel)))) ∧
  (∀ (i : Nat) (e : Err),
    r.trace[i]? = some
      (Event.find table (Filter.fieldExists versionField) [idField] 0 step (Except.error e)) →
      r.outcome = Outcome.returned (some e) ∧ r.trace.length = i + 1)

/-- What the bound on the iterations does to the loop, `run fuel s` being the
run of at most `fuel` iterations from the store `s`.
* With a bound above 0 the run starts with a fetch, and that fetch carries what
  the store answers on `s`.
* The run is still going only when all `fuel` iterations were completed, each
  one a fetch and a `DropColumns`.
* A run that returned is the same under the bound `fuel + 1`.
* A run that is still going is continued, under the bound `fuel + 1`, by another
  fetch.
* When the store answers the fetch on `s` with a non-empty page whose
  identifiers coerce, and the `DropColumns` on them succeeds and leaves the
  store `s2`, the run of at most `fuel + 1` iterations from `s` is these two
  calls followed by the run of at most `fuel` iterations from `s2`. -/
def LoopProgress {σ : Type} (db : RDB σ)
    (GetInt64ByInterface : Option Value → Int × Option Err)
    (table versionField idField : String) (run : Nat → σ → Run σ) (fuel : Nat) (s : σ) :
    Prop :=
  (0 < fuel →
    (run fuel s).trace[0]? = some
      (Event.find table (Filter.fieldExists versionField) [idField] 0 step
        (db.Find s table (Filter.fieldExists versionField) [idField] 0 step).1)) ∧
  ((run fuel s).outcome = Outcome.running → (run fuel s).trace.length = 2 * fuel) ∧
  (∀ e, (run fuel s).outcome = Outcome.returned e → run (fuel + 1) s = run fuel s) ∧
  ((run fuel s).outcome = Outcome.running →
    ∃ res rest, (run (fuel + 1) s).trace = (run fuel s).trace ++
      Event.find table (Filter.fieldExists versionField) [idField] 0 step res :: rest) ∧
  (∀ (page : List MapStr) (s1 : σ) (ids : List Int) (s2 : σ),
    db.Find s table (Filter.fieldExists versionField) [idField] 0 step
      = (Except.ok page, s1) →
    page ≠ [] →
    collectIDs GetInt64ByInterface idField page = Except.ok ids →
    db.DropColumns s1 table (Filter.fieldIn idField ids) [versionField] = (none, s2) →
    run (fuel + 1) s = (run fuel s2).after
      [Event.find table (Filter.fieldExists versionField) [idField] 0 step (Except.ok page),
       Event.dropColumns table (Filter.fieldIn idField ids) [versionField] none])

/-- The identifiers `GetInt64ByInterface` reads off the records, in order. -/
def idsOf (GetInt64ByInterface : Option Value → Int × Option Err) (idField : String)
    (records : List MapStr) : List Int :=
  records.map (fun r => (GetInt64ByInterface (r.get idField)).1)

/-- Every record of the collection that carries the field has a coercible
identifier. -/
def Coercible (GetInt64ByInterface : Option Value → Int × Option Err)
    (versionField idField : String) (s : List MapStr) : Prop :=
  ∀ r ∈ pending versionField s, (GetInt64ByInterface (r.get idField)).2 = none

/-- The collection after `DropColumns` of `versionField` on the identifiers `ids`. -/
def afterDrop (GetInt64ByInterface : Option Value → Int × Option Err)
    (versionField idField : String) (ids : List Int) (s : List MapStr) : List MapStr :=
  ((memRDB GetInt64ByInterface).DropColumns s "" (Filter.fieldIn idField ids)
    [versionField]).2

/-! ## Specification vocabulary for the handler -/

/-- The module ids of the rows of host `h` in set `s`, in row order. -/
def modulesOf (rows : List ModuleHost) (h s : Int) : List Int :=
  (rows.filter (fun r => decide (r.HostID = h ∧ r.SetID = s))).map ModuleHost.ModuleID

/-- What a set map holds for a list of module ids: no key for the empty list. -/
def entryOf (ms : List Int) : Option (List Int) :=
  if ms = [] then none else some ms

/-- The relation map agrees with the rows folded so far. -/
def RelationInv (rel : GoMap Int (GoMap Int (List Int))) (rows : List ModuleHost) : Prop :=
  ∀ h, (rel.get? h = none ∧ ∀ r ∈ rows, r.HostID ≠ h) ∨
    (∃ sm, rel.get? h = some sm ∧ (∃ r ∈ rows, r.HostID = h) ∧ sm.keys.Nodup ∧
      ∀ s, sm.get? s = entryOf (modulesOf rows h s))

/-- A host record whose host id field coerces to an integer. -/
def HostCoerces (env : HostEnv) (host : MapStr) : Prop :=
  (env.GetInt64ByInterface (host.get env.common.BKHostIDField)).2 = none

/-- A set record whose id and name fields both coerce. -/
def SetCoerces (env : HostEnv) (set : MapStr) : Prop :=
  (∃ setID, env.MapStrInt64 set env.common.BKSetIDField = Except.ok setID) ∧
  (∃ setName, env.MapStrString set env.common.BKSetNameField = Except.ok setName)

/-- A module record whose id and name fields both coerce. -/
def ModuleCoerces (env : HostEnv) (module : MapStr) : Prop :=
  (∃ moduleID, env.MapStrInt64 module env.common.BKModuleIDField = Except.ok moduleID) ∧
  (∃ moduleName, env.MapStrString module env.common.BKModuleNameField = Except.ok moduleName)

/-- The host id the assembly loop reads off a host record (line 345). -/
def hostIDOf (env : HostEnv) (host : MapStr) : Int :=
  (env.GetInt64ByInterface (host.get env.common.BKHostIDField)).1

/-- Every lookup and coercion of the handler succeeds, with the named results. -/
def Resolved (env : HostEnv) (bizID : Int) (hosts : ListHostResult) (hostIDs : List Int)
    (relations : List ModuleHost) (sets : List MapStr) (setMap : GoMap Int String)
    (modules : List MapStr) (moduleMap : GoMap Int String) : Prop :=
  collectHostIDs env hosts.Info = Except.ok hostIDs ∧
  env.GetConfigByCond (relationCond env bizID hostIDs) = Except.ok relations ∧
  env.ReadInstance env.common.BKInnerObjIDSet
    (setQuery env (env.IntArrayUnique (foldRelations relations).setIDs)) = Except.ok sets ∧
  buildSetMap env sets = Except.ok setMap ∧
  env.ReadInstance env.common.BKInnerObjIDModule
    (moduleQuery env (env.IntArrayUnique (foldRelations relations).moduleIDs))
      = Except.ok modules ∧
  buildModuleMap env modules = Except.ok moduleMap

/-- The rows a host's set map stands for: one row per module id under every
set id, for the host `hostID`. -/
def rowsOfSetModule (hostID : Int) (setModule : GoMap Int (List Int)) : List ModuleHost :=
  setModule.entries.flatMap (fun entry =>
    entry.2.map (fun moduleID =>
      ({ HostID := hostID, SetID := entry.1, ModuleID := moduleID } : ModuleHost)))

/-- The rows the adjacency structure stands for: every module id under every
set under every host. -/
def rowsOfRelation (relation : GoMap Int (GoMap Int (List Int))) : List ModuleHost :=
  relation.entries.flatMap (fun entry => rowsOfSetModule entry.1 entry.2)

/-- Relation rows in which the row (1, 10, 100) occurs twice. -/
def repeatedRows : List ModuleHost := [⟨1, 10, 100⟩, ⟨2, 20, 200⟩, ⟨1, 10, 100⟩, ⟨1, 11, 100⟩]

/-! ## Lemmas on the loops -/


theorem foldl_snoc_eq_map {α β : Type} (f : α → β) (l : List α) (init : List β) :
    l.foldl (fun acc x => acc ++ [f x]) init = init ++ l.map f := by
  induction l generalizing init with
  | nil => simp
  | cons a l ih => simp [ih]

theorem foldl_snoc_length_eq {α β : Type} (f : Nat → α → β) (l : List α) (init : List β) :
    l.foldl (fun acc x => acc ++ [f acc.length x]) init
      = init ++ (l.enumFrom init.length).map (fun p => f p.1 p.2) := by
  induction l generalizing init with
  | nil => simp
  | cons a l ih => simp [ih]

namespace GoMap

variable {K V : Type} [DecidableEq K]

theorem get?_empty (k : K) : (empty : GoMap K V).get? k = none := rfl

theorem lookup_map_replace (l : List (K × V)) (k k' : K) (v : V) :
    (l.map (fun p => if p.1 = k then (k, v) else p)).lookup k'
      = if k' = k then (l.lookup k).map (fun _ => v) else l.lookup k' := by
  induction l with
  | nil => simp
  | cons p l ih =>
    obtain ⟨a, b⟩ := p
    by_cases hak : a = k
    · subst hak
      by_cases hk : k' = a
      · subst hk; simp [List.lookup_cons]
      · have : (k' == a) = false := by simpa using hk
        simp [List.lookup_cons, this, ih, hk]
    · by_cases hk : k' = k
      · subst hk
        have : (k' == a) = false := by simpa using fun h => hak h.symm
        simp [List.lookup_cons, this, ih, hak]
      · by_cases hka : k' = a
        · subst hka; simp [List.lookup_cons, hak, hk]
        · have : (k' == a) = false := by simpa using hka
          simp [List.lookup_cons, this, ih, hak, hk]

theorem get?_set (m : GoMap K V) (k k' : K) (v : V) :
    (m.set k v).get? k' = if k' = k then some v else m.get? k' := by
  unfold set
  cases h : m.get? k with
  | some w =>
    simp only [get?] at h ⊢
    rw [lookup_map_replace]
    by_cases hk : k' = k <;> simp [hk, h]
  | none =>
    simp only [get?] at h ⊢
    rw [List.lookup_append]
    by_cases hk : k' = k
    · subst hk; simp [h, List.lookup_cons]
    · have : (k' == k) = false := by simpa using hk
      simp [hk, List.lookup_cons, this]

theorem keys_set (m : GoMap K V) (k : K) (v : V) :
    (m.set k v).keys = if (m.get? k).isSome then m.keys else m.keys ++ [k] := by
  unfold set keys
  cases h : m.get? k with
  | some w =>
    simp only [Option.isSome_some, if_true, List.map_map]
    apply List.map_congr_left
    intro p _
    by_cases hp : p.1 = k <;> simp [hp]
  | none => simp

theorem mem_keys_iff (m : GoMap K V) (k : K) : k ∈ m.keys ↔ (m.get? k).isSome := by
  unfold keys get?
  rw [List.lookup_isSome_iff]
  simp

theorem nodup_keys_set (m : GoMap K V) (k : K) (v : V) (h : m.keys.Nodup) :
    (m.set k v).keys.Nodup := by
  rw [keys_set]
  cases hk : (m.get? k).isSome with
  | true => simpa using h
  | false =>
    have hnot : k ∉ m.keys := by
      rw [mem_keys_iff, hk]; simp
    simp only [Bool.false_eq_true, if_false]
    rw [List.nodup_append]
    refine ⟨h, List.nodup_singleton k, ?_⟩
    intro a ha hb
    simp only [List.mem_singleton] at hb
    subst hb
    exact hnot ha

theorem mem_entries_iff (m : GoMap K V) (h : m.keys.Nodup) (k : K) (v : V) :
    (k, v) ∈ m.entries ↔ m.get? k = some v := by
  obtain ⟨l⟩ := m
  simp only [keys, get?] at h ⊢
  induction l with
  | nil => simp
  | cons p l ih =>
    obtain ⟨a, b⟩ := p
    simp only [List.map_cons, List.nodup_cons] at h
    by_cases hk : k = a
    · subst hk
      simp only [List.mem_cons, Prod.mk.injEq, true_and, List.lookup_cons_self, Option.some.injEq]
      constructor
      · rintro (h1 | h1)
        · exact h1.symm
        · exact absurd (List.mem_map_of_mem Prod.fst h1) h.1
      · intro h1; exact Or.inl h1.symm
    · have : (k == a) = false := by simpa using hk
      simp [List.lookup_cons, this, hk, ih h.2]

end GoMap

theorem modulesOf_snoc (rows : List ModuleHost) (r : ModuleHost) (h s : Int) :
    modulesOf (rows ++ [r]) h s
      = modulesOf rows h s ++ (if r.HostID = h ∧ r.SetID = s then [r.ModuleID] else []) := by
  unfold modulesOf
  by_cases hc : r.HostID = h ∧ r.SetID = s
  · simp [List.filter_append, hc]
  · simp [List.filter_append, hc]

theorem modulesOf_eq_nil_of_no_host (rows : List ModuleHost) (h s : Int)
    (hno : ∀ r ∈ rows, r.HostID ≠ h) : modulesOf rows h s = [] := by
  unfold modulesOf
  simp only [List.map_eq_nil_iff, List.filter_eq_nil_iff]
  intro r hr
  simp [hno r hr]

theorem getD_of_entryOf (sm : GoMap Int (List Int)) (s : Int) (ms : List Int)
    (h : sm.get? s = entryOf ms) : sm.getD s [] = ms := by
  unfold GoMap.getD entryOf at *
  by_cases hms : ms = []
  · simp [h, hms]
  · simp [h, hms]

theorem relationInv_step (rel : GoMap Int (GoMap Int (List Int))) (rows : List ModuleHost)
    (acc : RelationAcc) (hacc : acc.relation = rel) (r : ModuleHost)
    (hinv : RelationInv rel rows) :
    RelationInv (foldRelation acc r).relation (rows ++ [r]) := by
  subst hacc
  intro h
  by_cases hh : h = r.HostID
  · subst hh
    rcases hinv r.HostID with ⟨hnone, hno⟩ | ⟨sm, hsome, _, hnd, hget⟩
    · right
      refine ⟨(GoMap.empty : GoMap Int (List Int)).set r.SetID
        ((GoMap.empty : GoMap Int (List Int)).getD r.SetID [] ++ [r.ModuleID]), ?_, ?_, ?_, ?_⟩
      · simp [foldRelation, hnone, GoMap.get?_set]
      · exact ⟨r, by simp, rfl⟩
      · apply GoMap.nodup_keys_set
        simp [GoMap.keys, GoMap.empty]
      · intro s
        rw [GoMap.get?_set, modulesOf_snoc, modulesOf_eq_nil_of_no_host rows _ s hno]
        by_cases hs : s = r.SetID
        · subst hs; simp [entryOf, GoMap.getD, GoMap.get?_empty]
        · have hs2 : ¬ r.SetID = s := fun e => hs e.symm
          simp [hs, hs2, entryOf, GoMap.get?_empty]
    · right
      refine ⟨sm.set r.SetID (sm.getD r.SetID [] ++ [r.ModuleID]), ?_, ?_, ?_, ?_⟩
      · simp [foldRelation, hsome, GoMap.get?_set]
      · exact ⟨r, by simp, rfl⟩
      · exact GoMap.nodup_keys_set _ _ _ hnd
      · intro s
        rw [GoMap.get?_set, modulesOf_snoc]
        by_cases hs : s = r.SetID
        · subst hs
          rw [getD_of_entryOf sm _ _ (hget _)]
          simp [entryOf]
        · have hs2 : ¬ r.SetID = s := fun e => hs e.symm
          simp [hs, hs2, hget s]
  · have hh2 : ¬ r.HostID = h := fun e => hh e.symm
    have hkeep : (foldRelation acc r).relation.get? h = acc.relation.get? h := by
      unfold foldRelation
      cases acc.relation.get? r.HostID <;> simp [GoMap.get?_set, hh]
    have hmod : ∀ s, modulesOf (rows ++ [r]) h s = modulesOf rows h s := by
      intro s
      rw [modulesOf_snoc]
      simp [hh2]
    rcases hinv h with ⟨hnone, hno⟩ | ⟨sm, hsome, ⟨r0, hr0, hr0h⟩, hnd, hget⟩
    · left
      refine ⟨by rw [hkeep, hnone], ?_⟩
      intro r' hr'
      rcases List.mem_append.1 hr' with h1 | h1
      · exact hno r' h1
      · simp only [List.mem_singleton] at h1
        subst h1
        exact hh2
    · right
      refine ⟨sm, by rw [hkeep, hsome], ⟨r0, by simp [hr0], hr0h⟩, hnd, ?_⟩
      intro s
      rw [hmod, hget]

theorem relationInv_foldl (rows done : List ModuleHost) (acc : RelationAcc)
    (hinv : RelationInv acc.relation done) :
    RelationInv (rows.foldl foldRelation acc).relation (done ++ rows) := by
  induction rows generalizing done acc with
  | nil => simpa using hinv
  | cons r rows ih =>
    have := ih (done ++ [r]) (foldRelation acc r) (relationInv_step _ _ acc rfl r hinv)
    simpa using this

theorem relationInv_foldRelations (rows : List ModuleHost) :
    RelationInv (foldRelations rows).relation rows := by
  have := relationInv_foldl rows [] ⟨[], [], GoMap.empty⟩ (by
    intro h
    left
    exact ⟨rfl, by simp⟩)
  simpa [foldRelations] using this

theorem foldlM_except_total {α β : Type} (f : β → α → Except Err β) (good : α → Prop)
    (hgood : ∀ b a, good a → ∃ b', f b a = Except.ok b')
    (hbad : ∀ b a, ¬ good a → ∃ e, f b a = Except.error e) (l : List α) (b : β) :
    ((∀ a ∈ l, good a) → ∃ b', l.foldlM f b = Except.ok b') ∧
    ((∃ a ∈ l, ¬ good a) → ∃ e, l.foldlM f b = Except.error e) := by
  induction l generalizing b with
  | nil =>
    refine ⟨fun _ => ⟨b, rfl⟩, ?_⟩
    rintro ⟨a, ha, _⟩
    simp at ha
  | cons a l ih =>
    by_cases hga : good a
    · obtain ⟨b', hb'⟩ := hgood b a hga
      have hstep : (a :: l).foldlM f b = l.foldlM f b' := by
        simp [List.foldlM_cons, hb', bind, Except.bind]
      rw [hstep]
      refine ⟨fun hall => (ih b').1 (fun x hx => hall x (List.mem_cons_of_mem _ hx)), ?_⟩
      rintro ⟨x, hx, hnx⟩
      rcases List.mem_cons.1 hx with h1 | h1
      · subst h1; exact absurd hga hnx
      · exact (ih b').2 ⟨x, h1, hnx⟩
    · obtain ⟨e, he⟩ := hbad b a hga
      have hstep : (a :: l).foldlM f b = Except.error e := by
        simp [List.foldlM_cons, he, bind, Except.bind]
      rw [hstep]
      refine ⟨fun hall => absurd (hall a (List.mem_cons_self _ _)) hga, fun _ => ⟨e, rfl⟩⟩

theorem foldlM_except_ok_iff {α β : Type} (f : β → α → Except Err β) (good : α → Prop)
    (hgood : ∀ b a, good a → ∃ b', f b a = Except.ok b')
    (hbad : ∀ b a, ¬ good a → ∃ e, f b a = Except.error e) (l : List α) (b : β) :
    (∃ b', l.foldlM f b = Except.ok b') ↔ ∀ a ∈ l, good a := by
  constructor
  · rintro ⟨b', hb'⟩
    by_contra hcon
    push_neg at hcon
    obtain ⟨e, he⟩ := (foldlM_except_total f good hgood hbad l b).2 hcon
    rw [he] at hb'
    cases hb'
  · exact (foldlM_except_total f good hgood hbad l b).1

theorem collectHostIDs_ok_iff (env : HostEnv) (hosts : List MapStr) :
    (∃ ids, collectHostIDs env hosts = Except.ok ids) ↔ ∀ host ∈ hosts, HostCoerces env host := by
  unfold collectHostIDs
  apply foldlM_except_ok_iff
  · intro b a ha
    unfold HostCoerces at ha
    rcases hc : env.GetInt64ByInterface (a.get env.common.BKHostIDField) with ⟨v, e⟩
    rw [hc] at ha
    simp only at ha
    subst ha
    exact ⟨_, rfl⟩
  · intro b a ha
    unfold HostCoerces at ha
    rcases hc : env.GetInt64ByInterface (a.get env.common.BKHostIDField) with ⟨v, e⟩
    rw [hc] at ha
    cases e with
    | none => exact absurd rfl ha
    | some err => exact ⟨err, rfl⟩

theorem collectHostIDs_value_aux (env : HostEnv) (hosts : List MapStr) (acc ids : List Int)
    (h : hosts.foldlM (fun hostIDs host =>
      match env.GetInt64ByInterface (host.get env.common.BKHostIDField) with
      | (_, some err) => Except.error err
      | (hostID, none) => Except.ok (hostIDs ++ [hostID])) acc = Except.ok ids) :
    ids = acc ++ hosts.map
      (fun host => (env.GetInt64ByInterface (host.get env.common.BKHostIDField)).1) := by
  induction hosts generalizing acc with
  | nil =>
    simp only [List.foldlM_nil, pure, Except.pure, Except.ok.injEq] at h
    simp [h]
  | cons a l ih =>
    rw [List.foldlM_cons] at h
    rcases hc : env.GetInt64ByInterface (a.get env.common.BKHostIDField) with ⟨v, e⟩
    rw [hc] at h
    cases e with
    | some err => simp [bind, Except.bind] at h
    | none =>
      simp only [bind, Except.bind] at h
      have := ih _ h
      simp [this, hc]

theorem collectHostIDs_value (env : HostEnv) (hosts : List MapStr) (ids : List Int)
    (h : collectHostIDs env hosts = Except.ok ids) :
    ids = hosts.map
      (fun host => (env.GetInt64ByInterface (host.get env.common.BKHostIDField)).1) := by
  have := collectHostIDs_value_aux env hosts [] ids h
  simpa using this

theorem buildSetMap_ok_iff (env : HostEnv) (sets : List MapStr) :
    (∃ m, buildSetMap env sets = Except.ok m) ↔ ∀ set ∈ sets, SetCoerces env set := by
  unfold buildSetMap
  apply foldlM_except_ok_iff
  · rintro b a ⟨⟨i, hi⟩, ⟨n, hn⟩⟩
    simp [hi, hn]
  · intro b a ha
    unfold SetCoerces at ha
    cases hi : env.MapStrInt64 a env.common.BKSetIDField with
    | error e => exact ⟨e, rfl⟩
    | ok i =>
      cases hn : env.MapStrString a env.common.BKSetNameField with
      | error e => exact ⟨e, rfl⟩
      | ok n => exact absurd ⟨⟨i, hi⟩, ⟨n, hn⟩⟩ ha

theorem buildModuleMap_ok_iff (env : HostEnv) (modules : List MapStr) :
    (∃ m, buildModuleMap env modules = Except.ok m) ↔
      ∀ module ∈ modules, ModuleCoerces env module := by
  unfold buildModuleMap
  apply foldlM_except_ok_iff
  · rintro b a ⟨⟨i, hi⟩, ⟨n, hn⟩⟩
    simp [hi, hn]
  · intro b a ha
    unfold ModuleCoerces at ha
    cases hi : env.MapStrInt64 a env.common.BKModuleIDField with
    | error e => exact ⟨e, rfl⟩
    | ok i =>
      cases hn : env.MapStrString a env.common.BKModuleNameField with
      | error e => exact ⟨e, rfl⟩
      | ok n => exact absurd ⟨⟨i, hi⟩, ⟨n, hn⟩⟩ ha

theorem ListBizHostsTopo_of_resolved (env : HostEnv) (bizID : Int) (hosts : ListHostResult)
    (hostIDs : List Int) (relations : List ModuleHost) (sets : List MapStr)
    (setMap : GoMap Int String) (modules : List MapStr) (moduleMap : GoMap Int String)
    (hne : hosts.Info ≠ [])
    (hres : Resolved env bizID hosts hostIDs relations sets setMap modules moduleMap) :
    ListBizHostsTopo env bizID hosts = Response.successTopo
      (formatOutput env hosts (foldRelations relations).relation setMap moduleMap) := by
  obtain ⟨h1, h2, h3, h4, h5, h6⟩ := hres
  have hlen : ¬ hosts.Info.length = 0 := by
    intro h0
    exact hne (List.length_eq_zero.1 h0)
  unfold ListBizHostsTopo
  rw [if_neg hlen]
  simp only [h1, h2, h3, h4, h5, h6]

theorem ListBizHostsTopo_topo_inv (env : HostEnv) (bizID : Int) (hosts : ListHostResult)
    (res : HostTopoResult) (h : ListBizHostsTopo env bizID hosts = Response.successTopo res) :
    hosts.Info ≠ [] ∧ ∃ hostIDs relations sets setMap modules moduleMap,
      Resolved env bizID hosts hostIDs relations sets setMap modules moduleMap ∧
      res = formatOutput env hosts (foldRelations relations).relation setMap moduleMap := by
  unfold ListBizHostsTopo at h
  by_cases hlen : hosts.Info.length = 0
  · rw [if_pos hlen] at h
    cases h
  · rw [if_neg hlen] at h
    refine ⟨fun h0 => hlen (by rw [h0]; rfl), ?_⟩
    cases h1 : collectHostIDs env hosts.Info with
    | error e => rw [h1] at h; cases h
    | ok hostIDs =>
      rw [h1] at h
      simp only at h
      cases h2 : env.GetConfigByCond (relationCond env bizID hostIDs) with
      | error e => rw [h2] at h; cases h
      | ok relations =>
        rw [h2] at h
        simp only at h
        cases h3 : env.ReadInstance env.common.BKInnerObjIDSet
            (setQuery env (env.IntArrayUnique (foldRelations relations).setIDs)) with
        | error e => rw [h3] at h; cases h
        | ok sets =>
          rw [h3] at h
          simp only at h
          cases h4 : buildSetMap env sets with
          | error e => rw [h4] at h; cases h
          | ok setMap =>
            rw [h4] at h
            simp only at h
            cases h5 : env.ReadInstance env.common.BKInnerObjIDModule
                (moduleQuery env (env.IntArrayUnique (foldRelations relations).moduleIDs)) with
            | error e => rw [h5] at h; cases h
            | ok modules =>
              rw [h5] at h
              simp only at h
              cases h6 : buildModuleMap env modules with
              | error e => rw [h6] at h; cases h
              | ok moduleMap =>
                rw [h6] at h
                simp only [Response.successTopo.injEq] at h
                exact ⟨hostIDs, relations, sets, setMap, modules, moduleMap,
                  ⟨h1, h2, h3, h4, h5, h6⟩, h.symm⟩

theorem buildModules_eq (moduleMap : GoMap Int String) (moduleIDs : List Int) :
    buildModules moduleMap moduleIDs
      = moduleIDs.map (fun moduleID =>
          ({ ModuleID := moduleID, ModuleName := moduleMap.getD moduleID "" } : Module)) := by
  unfold buildModules
  rw [foldl_snoc_eq_map]
  simp

theorem buildTopos_eq (env : HostEnv) (relation : GoMap Int (GoMap Int (List Int)))
    (setMap moduleMap : GoMap Int String) (n : Nat) (host : MapStr) :
    buildTopos env relation setMap moduleMap n host
      = match relation.get? (hostIDOf env host) with
        | some setModule =>
          (env.rangeOrder n setModule.entries).map (fun entry =>
            ({ SetID := entry.1, SetName := setMap.getD entry.1 "",
               Module := buildModules moduleMap entry.2 } : Topo))
        | none => [] := by
  unfold buildTopos hostIDOf
  simp only
  cases relation.get? (env.GetInt64ByInterface (host.get env.common.BKHostIDField)).1 with
  | none => rfl
  | some sm =>
    simp only
    rw [foldl_snoc_eq_map (fun entry : Int × List Int =>
      ({ SetID := entry.1, SetName := setMap.getD entry.1 "",
         Module := buildModules moduleMap entry.2 } : Topo))]
    simp

theorem formatOutput_info_getElem? (env : HostEnv) (hosts : ListHostResult)
    (relation : GoMap Int (GoMap Int (List Int))) (setMap moduleMap : GoMap Int String)
    (i : Nat) :
    (formatOutput env hosts relation setMap moduleMap).Info[i]?
      = hosts.Info[i]?.map (fun host =>
          ({ Host := host, Topo := buildTopos env relation setMap moduleMap i host } : HostTopo))
    := by
  unfold formatOutput
  simp only
  rw [foldl_snoc_length_eq (fun n host =>
    ({ Host := host, Topo := buildTopos env relation setMap moduleMap n host } : HostTopo))]
  simp only [List.nil_append, List.length_nil, List.getElem?_map, List.getElem?_enumFrom]
  cases hosts.Info[i]? <;> simp

theorem formatOutput_info_length (env : HostEnv) (hosts : ListHostResult)
    (relation : GoMap Int (GoMap Int (List Int))) (setMap moduleMap : GoMap Int String) :
    (formatOutput env hosts relation setMap moduleMap).Info.length = hosts.Info.length := by
  unfold formatOutput
  simp only
  rw [foldl_snoc_length_eq (fun n host =>
    ({ Host := host, Topo := buildTopos env relation setMap moduleMap n host } : HostTopo))]
  simp

theorem modulesOf_ne_nil_iff (rows : List ModuleHost) (h s : Int) :
    modulesOf rows h s ≠ [] ↔ ∃ r ∈ rows, r.HostID = h ∧ r.SetID = s := by
  unfold modulesOf
  rw [Ne, List.map_eq_nil_iff, List.filter_eq_nil_iff]
  push_neg
  constructor
  · rintro ⟨r, hr, hc⟩
    exact ⟨r, hr, by simpa using hc⟩
  · rintro ⟨r, hr, hc⟩
    exact ⟨r, hr, by simpa using hc⟩

theorem buildTopos_spec (env : HostEnv) (relation : GoMap Int (GoMap Int (List Int)))
    (rows : List ModuleHost) (hinv : RelationInv relation rows)
    (setMap moduleMap : GoMap Int String) (n : Nat) (host : MapStr) :
    ((buildTopos env relation setMap moduleMap n host).map Topo.SetID).Nodup ∧
    (∀ s, s ∈ (buildTopos env relation setMap moduleMap n host).map Topo.SetID ↔
      ∃ r ∈ rows, r.HostID = hostIDOf env host ∧ r.SetID = s) ∧
    (∀ g ∈ buildTopos env relation setMap moduleMap n host,
      g.SetName = setMap.getD g.SetID "" ∧
      g.Module = (rows.filter (fun r => decide (r.HostID = hostIDOf env host ∧ r.SetID = g.SetID))).map
        (fun r => ({ ModuleID := r.ModuleID, ModuleName := moduleMap.getD r.ModuleID "" } : Module)))
    := by
  rw [buildTopos_eq]
  rcases hinv (hostIDOf env host) with ⟨hnone, hno⟩ | ⟨sm, hsome, _, hnd, hget⟩
  · rw [hnone]
    refine ⟨by simp, ?_, by simp⟩
    intro s
    constructor
    · intro h; simp at h
    · rintro ⟨r, hr, hh, _⟩
      exact absurd hh (hno r hr)
  · rw [hsome]
    simp only
    have hperm := env.rangeOrder_perm n sm.entries
    have hkeys : ((env.rangeOrder n sm.entries).map (fun entry =>
        ({ SetID := entry.1, SetName := setMap.getD entry.1 "",
           Module := buildModules moduleMap entry.2 } : Topo))).map Topo.SetID
        = (env.rangeOrder n sm.entries).map Prod.fst := by
      rw [List.map_map]
      rfl
    have hpk : ((env.rangeOrder n sm.entries).map Prod.fst).Perm sm.keys := hperm.map _
    refine ⟨?_, ?_, ?_⟩
    · rw [hkeys]
      exact hpk.nodup_iff.2 hnd
    · intro s
      rw [hkeys, hpk.mem_iff, GoMap.mem_keys_iff, hget s, ← modulesOf_ne_nil_iff]
      unfold entryOf
      by_cases hm : modulesOf rows (hostIDOf env host) s = [] <;> simp [hm]
    · intro g hg
      rw [List.mem_map] at hg
      obtain ⟨⟨s, ms⟩, hmem, rfl⟩ := hg
      have hmem2 : (s, ms) ∈ sm.entries := hperm.mem_iff.1 hmem
      have hlook := (GoMap.mem_entries_iff sm hnd s ms).1 hmem2
      rw [hget s] at hlook
      have hms : ms = modulesOf rows (hostIDOf env host) s := by
        unfold entryOf at hlook
        by_cases hm : modulesOf rows (hostIDOf env host) s = []
        · simp [hm] at hlook
        · simp only [hm, if_false, Option.some.injEq] at hlook
          exact hlook.symm
      refine ⟨rfl, ?_⟩
      simp only
      rw [buildModules_eq, hms]
      unfold modulesOf
      rw [List.map_map]
      rfl


/-! ## Claims on `ListBizHostsTopo` -/

/-- C1: when every lookup and coercion succeeds on a non-empty host page, the
entry emitted for the host at page position `i` has exactly one group per
distinct set id of that host's relation rows (no set id twice, and a set id is
present iff some row of the host carries it, whatever the iteration order of the
set map); each group carries the set map's name for its set id, and its module
list is the module ids of the host's rows of that set, in row order, each paired
with the module map's name. -/
theorem topo_groups_per_set (env : HostEnv) (bizID : Int) (hosts : ListHostResult)
    (hostIDs : List Int) (relations : List ModuleHost) (sets : List MapStr)
    (setMap : GoMap Int String) (modules : List MapStr) (moduleMap : GoMap Int String)
    (hne : hosts.Info ≠ [])
    (hres : Resolved env bizID hosts hostIDs relations sets setMap modules moduleMap) :
    ∃ res : HostTopoResult, ListBizHostsTopo env bizID hosts = Response.successTopo res ∧
      ∀ (i : Nat) (host : MapStr), hosts.Info[i]? = some host →
        ∃ ht : HostTopo, res.Info[i]? = some ht ∧
          (ht.Topo.map Topo.SetID).Nodup ∧
          (∀ s, s ∈ ht.Topo.map Topo.SetID ↔
            ∃ r ∈ relations, r.HostID = hostIDOf env host ∧ r.SetID = s) ∧
          (∀ g ∈ ht.Topo,
            g.SetName = setMap.getD g.SetID "" ∧
            g.Module =
              (relations.filter
                (fun r => decide (r.HostID = hostIDOf env host ∧ r.SetID = g.SetID))).map
                (fun r => ({ ModuleID := r.ModuleID,
                             ModuleName := moduleMap.getD r.ModuleID "" } : Module))) := by
  refine ⟨_, ListBizHostsTopo_of_resolved env bizID hosts hostIDs relations sets setMap
    modules moduleMap hne hres, ?_⟩
  intro i host hi
  refine ⟨_, by rw [formatOutput_info_getElem?, hi]; rfl, ?_⟩
  exact buildTopos_spec env _ relations (relationInv_foldRelations relations) setMap moduleMap
    i host

/-- C1, the end-to-end scenario: hosts 1 and 2, rows (1,10,100), (1,10,101),
(2,20,200), names SetA, SetB, Mod1, Mod2, Mod3. -/
theorem topo_groups_per_set_witness :
    ListBizHostsTopo scenarioEnv 7 scenarioHosts
      = Response.successTopo ⟨2,
          [⟨mkHost 1, [⟨10, "SetA", [⟨100, "Mod1"⟩, ⟨101, "Mod2"⟩]⟩]⟩,
           ⟨mkHost 2, [⟨20, "SetB", [⟨200, "Mod3"⟩]⟩]⟩]⟩ ∧
    ∃ res : HostTopoResult, ListBizHostsTopo scenarioEnv 7 scenarioHosts = Response.successTopo res ∧
      ∀ (i : Nat) (host : MapStr), scenarioHosts.Info[i]? = some host →
        ∃ ht : HostTopo, res.Info[i]? = some ht ∧
          (ht.Topo.map Topo.SetID).Nodup ∧
          (∀ s, s ∈ ht.Topo.map Topo.SetID ↔
            ∃ r ∈ scenarioRows, r.HostID = hostIDOf scenarioEnv host ∧ r.SetID = s) ∧
          (∀ g ∈ ht.Topo,
            g.SetName = scenarioSetMap.getD g.SetID "" ∧
            g.Module =
              (scenarioRows.filter
                (fun r => decide (r.HostID = hostIDOf scenarioEnv host ∧ r.SetID = g.SetID))).map
                (fun r => ({ ModuleID := r.ModuleID,
                             ModuleName := scenarioModuleMap.getD r.ModuleID "" } : Module))) :=
  ⟨by decide,
   topo_groups_per_set scenarioEnv 7 scenarioHosts [1, 2] scenarioRows
    scenarioSets scenarioSetMap scenarioModules scenarioModuleMap (by decide)
    ⟨rfl, rfl, rfl, rfl, rfl, rfl⟩⟩

/-- C2: on a non-empty host page the handler answers with an error, and no
topology, as soon as one step fails: a host id coercion, the relation fetch, the
set lookup, a set id or set name coercion, the module lookup, a module id or
module name coercion; and a topology answer means every one of them succeeded. -/
theorem errors_abort_request (env : HostEnv) (bizID : Int) (hosts : ListHostResult)
    (hne : hosts.Info ≠ []) :
    ((∃ host ∈ hosts.Info, ¬ HostCoerces env host) →
      ∃ e, ListBizHostsTopo env bizID hosts = Response.error StatusInternalServerError e) ∧
    (∀ hostIDs, collectHostIDs env hosts.Info = Except.ok hostIDs →
      (∀ e, env.GetConfigByCond (relationCond env bizID hostIDs) = Except.error e →
        ListBizHostsTopo env bizID hosts = Response.error StatusInternalServerError e) ∧
      ∀ relations, env.GetConfigByCond (relationCond env bizID hostIDs) = Except.ok relations →
        (∀ e, env.ReadInstance env.common.BKInnerObjIDSet
            (setQuery env (env.IntArrayUnique (foldRelations relations).setIDs))
              = Except.error e →
          ListBizHostsTopo env bizID hosts = Response.error StatusInternalServerError e) ∧
        ∀ sets, env.ReadInstance env.common.BKInnerObjIDSet
            (setQuery env (env.IntArrayUnique (foldRelations relations).setIDs))
              = Except.ok sets →
          ((∃ set ∈ sets, ¬ SetCoerces env set) →
            ∃ e, ListBizHostsTopo env bizID hosts
              = Response.error StatusInternalServerError e) ∧
          ∀ setMap, buildSetMap env sets = Except.ok setMap →
            (∀ e, env.ReadInstance env.common.BKInnerObjIDModule
                (moduleQuery env (env.IntArrayUnique (foldRelations relations).moduleIDs))
                  = Except.error e →
              ListBizHostsTopo env bizID hosts
                = Response.error StatusInternalServerError e) ∧
            ∀ modules, env.ReadInstance env.common.BKInnerObjIDModule
                (moduleQuery env (env.IntArrayUnique (foldRelations relations).moduleIDs))
                  = Except.ok modules →
              ((∃ module ∈ modules, ¬ ModuleCoerces env module) →
                ∃ e, ListBizHostsTopo env bizID hosts
                  = Response.error StatusInternalServerError e)) ∧
    (∀ res, ListBizHostsTopo env bizID hosts = Response.successTopo res →
      ∃ hostIDs relations sets setMap modules moduleMap,
        Resolved env bizID hosts hostIDs relations sets setMap modules moduleMap ∧
        hostIDs = hosts.Info.map (hostIDOf env) ∧
        (∀ host ∈ hosts.Info, HostCoerces env host) ∧
        (∀ set ∈ sets, SetCoerces env set) ∧
        (∀ module ∈ modules, ModuleCoerces env module) ∧
        res = formatOutput env hosts (foldRelations relations).relation setMap moduleMap) ∧
    (∀ data, ListBizHostsTopo env bizID hosts ≠ Response.successHosts data) := by
  have hlen : ¬ hosts.Info.length = 0 := fun h0 => hne (List.length_eq_zero.1 h0)
  refine ⟨?_, ?_, ?_, ?_⟩
  · intro hbad
    have hnot : ¬ ∃ ids, collectHostIDs env hosts.Info = Except.ok ids := by
      rw [collectHostIDs_ok_iff]
      push_neg
      exact hbad
    cases h1 : collectHostIDs env hosts.Info with
    | ok ids => exact absurd ⟨ids, h1⟩ hnot
    | error e =>
      refine ⟨e, ?_⟩
      unfold ListBizHostsTopo
      rw [if_neg hlen, h1]
  · intro hostIDs h1
    refine ⟨?_, ?_⟩
    · intro e h2
      unfold ListBizHostsTopo
      rw [if_neg hlen, h1]
      simp only [h2]
    intro relations h2
    refine ⟨?_, ?_⟩
    · intro e h3
      unfold ListBizHostsTopo
      rw [if_neg hlen, h1]
      simp only [h2, h3]
    intro sets h3
    refine ⟨?_, ?_⟩
    · intro hbad
      have hnot : ¬ ∃ m, buildSetMap env sets = Except.ok m := by
        rw [buildSetMap_ok_iff]
        push_neg
        exact hbad
      cases h4 : buildSetMap env sets with
      | ok m => exact absurd ⟨m, h4⟩ hnot
      | error e =>
        refine ⟨e, ?_⟩
        unfold ListBizHostsTopo
        rw [if_neg hlen, h1]
        simp only [h2, h3, h4]
    intro setMap h4
    refine ⟨?_, ?_⟩
    · intro e h5
      unfold ListBizHostsTopo
      rw [if_neg hlen, h1]
      simp only [h2, h3, h4, h5]
    intro modules h5 hbad
    have hnot : ¬ ∃ m, buildModuleMap env modules = Except.ok m := by
      rw [buildModuleMap_ok_iff]
      push_neg
      exact hbad
    cases h6 : buildModuleMap env modules with
    | ok m => exact absurd ⟨m, h6⟩ hnot
    | error e =>
      refine ⟨e, ?_⟩
      unfold ListBizHostsTopo
      rw [if_neg hlen, h1]
      simp only [h2, h3, h4, h5, h6]
  · intro res hresp
    obtain ⟨_, hostIDs, relations, sets, setMap, modules, moduleMap, hres, hfmt⟩ :=
      ListBizHostsTopo_topo_inv env bizID hosts res hresp
    refine ⟨hostIDs, relations, sets, setMap, modules, moduleMap, hres, ?_, ?_, ?_, ?_, hfmt⟩
    · exact collectHostIDs_value env hosts.Info hostIDs hres.1
    · exact (collectHostIDs_ok_iff env hosts.Info).1 ⟨hostIDs, hres.1⟩
    · exact (buildSetMap_ok_iff env sets).1 ⟨setMap, hres.2.2.2.1⟩
    · exact (buildModuleMap_ok_iff env modules).1 ⟨moduleMap, hres.2.2.2.2.2⟩
  · intro data hresp
    unfold ListBizHostsTopo at hresp
    rw [if_neg hlen] at hresp
    split at hresp
    · cases hresp
    · split at hresp
      · cases hresp
      · simp only at hresp
        split at hresp
        · cases hresp
        · split at hresp
          · cases hresp
          · split at hresp
            · cases hresp
            · split at hresp
              · cases hresp
              · cases hresp

/-- C2 at work: a page whose second host carries a non-numeric host id is
answered with an error, and the scenario page, where everything coerces, with a
topology. -/
theorem errors_abort_request_witness :
    scenarioBadHosts.Info ≠ [] ∧
    (∃ e, ListBizHostsTopo scenarioEnv 7 scenarioBadHosts
      = Response.error StatusInternalServerError e) ∧
    ListBizHostsTopo scenarioEnv 7 scenarioBadHosts
      = Response.error 500 ⟨"not numeric"⟩ :=
  ⟨by decide,
   (errors_abort_request scenarioEnv 7 scenarioBadHosts (by decide)).1
    ⟨⟨[("bk_host_id", Value.str "x")]⟩, by decide, by unfold HostCoerces; decide⟩,
   by decide⟩

/-- C3: when every lookup and coercion succeeds on a non-empty host page, a
host of the page whose host id occurs in no relation row has its entry in
`info`, at its page position, with an empty topo list. -/
theorem host_without_rows_has_empty_topo (env : HostEnv) (bizID : Int)
    (hosts : ListHostResult) (hostIDs : List Int) (relations : List ModuleHost)
    (sets : List MapStr) (setMap : GoMap Int String) (modules : List MapStr)
    (moduleMap : GoMap Int String) (hne : hosts.Info ≠ [])
    (hres : Resolved env bizID hosts hostIDs relations sets setMap modules moduleMap) :
    ∃ res : HostTopoResult, ListBizHostsTopo env bizID hosts = Response.successTopo res ∧
      ∀ (i : Nat) (host : MapStr), hosts.Info[i]? = some host →
        (∀ r ∈ relations, r.HostID ≠ hostIDOf env host) →
        res.Info[i]? = some { Host := host, Topo := [] } := by
  refine ⟨_, ListBizHostsTopo_of_resolved env bizID hosts hostIDs relations sets setMap
    modules moduleMap hne hres, ?_⟩
  intro i host hi hno
  rw [formatOutput_info_getElem?, hi]
  simp only [Option.map_some', Option.some.injEq, HostTopo.mk.injEq, true_and]
  rw [buildTopos_eq]
  rcases relationInv_foldRelations relations (hostIDOf env host) with
    ⟨hnone, _⟩ | ⟨sm, _, ⟨r, hr, hh⟩, _, _⟩
  · rw [hnone]
  · exact absurd hh (hno r hr)

/-- C3 at work: host 3 of the page has no relation row and is listed with an
empty topo list. -/
theorem host_without_rows_has_empty_topo_witness :
    ListBizHostsTopo scenarioEnv 7 scenarioLoneHosts
      = Response.successTopo ⟨3,
          [⟨mkHost 1, [⟨10, "SetA", [⟨100, "Mod1"⟩, ⟨101, "Mod2"⟩]⟩]⟩,
           ⟨mkHost 3, []⟩]⟩ ∧
    ∃ res : HostTopoResult,
      ListBizHostsTopo scenarioEnv 7 scenarioLoneHosts = Response.successTopo res ∧
      ∀ (i : Nat) (host : MapStr), scenarioLoneHosts.Info[i]? = some host →
        (∀ r ∈ scenarioRows, r.HostID ≠ hostIDOf scenarioEnv host) →
        res.Info[i]? = some { Host := host, Topo := [] } :=
  ⟨by decide,
   host_without_rows_has_empty_topo scenarioEnv 7 scenarioLoneHosts [1, 3] scenarioRows
    scenarioSets scenarioSetMap scenarioModules scenarioModuleMap (by decide)
    ⟨rfl, rfl, rfl, rfl, rfl, rfl⟩⟩

/-- C4: success of the request does not depend on any name being present: when
every lookup and coercion succeeds on a non-empty host page, every relation row
of a host of the page has its group in that host's entry and its module
sub-entry in that group, and a set id or module id without an entry in the name
mapping is emitted with the empty string as its name. -/
theorem missing_name_is_empty_string (env : HostEnv) (bizID : Int)
    (hosts : ListHostResult) (hostIDs : List Int) (relations : List ModuleHost)
    (sets : List MapStr) (setMap : GoMap Int String) (modules : List MapStr)
    (moduleMap : GoMap Int String) (hne : hosts.Info ≠ [])
    (hres : Resolved env bizID hosts hostIDs relations sets setMap modules moduleMap) :
    ∃ res : HostTopoResult, ListBizHostsTopo env bizID hosts = Response.successTopo res ∧
      ∀ (i : Nat) (host : MapStr), hosts.Info[i]? = some host →
        ∀ r ∈ relations, r.HostID = hostIDOf env host →
          ∃ ht : HostTopo, res.Info[i]? = some ht ∧
            ∃ g ∈ ht.Topo, g.SetID = r.SetID ∧
              (setMap.get? r.SetID = none → g.SetName = "") ∧
              ∃ m ∈ g.Module, m.ModuleID = r.ModuleID ∧
                (moduleMap.get? r.ModuleID = none → m.ModuleName = "") := by
  obtain ⟨res, hresp, hall⟩ := (show ∃ res : HostTopoResult,
      ListBizHostsTopo env bizID hosts = Response.successTopo res ∧
      ∀ (i : Nat) (host : MapStr), hosts.Info[i]? = some host →
        ∃ ht : HostTopo, res.Info[i]? = some ht ∧
          ht.Topo = buildTopos env (foldRelations relations).relation setMap moduleMap i host
      from ⟨_, ListBizHostsTopo_of_resolved env bizID hosts hostIDs relations sets setMap
        modules moduleMap hne hres, fun i host hi =>
          ⟨_, by rw [formatOutput_info_getElem?, hi]; rfl, rfl⟩⟩)
  refine ⟨res, hresp, ?_⟩
  intro i host hi r hr hh
  obtain ⟨ht, hht, htopo⟩ := hall i host hi
  refine ⟨ht, hht, ?_⟩
  obtain ⟨_, hmem, hgrp⟩ := buildTopos_spec env _ relations
    (relationInv_foldRelations relations) setMap moduleMap i host
  rw [← htopo] at hmem hgrp
  have hs : r.SetID ∈ ht.Topo.map Topo.SetID := (hmem r.SetID).2 ⟨r, hr, hh, rfl⟩
  obtain ⟨g, hg, hgs⟩ := List.mem_map.1 hs
  obtain ⟨hname, hmods⟩ := hgrp g hg
  refine ⟨g, hg, hgs, ?_, ?_⟩
  · intro hnone
    rw [hname, hgs]
    simp [GoMap.getD, hnone]
  · refine ⟨{ ModuleID := r.ModuleID, ModuleName := moduleMap.getD r.ModuleID "" }, ?_, rfl, ?_⟩
    · rw [hmods]
      refine List.mem_map.2 ⟨r, ?_, rfl⟩
      rw [List.mem_filter]
      exact ⟨hr, by simp [hh, hgs]⟩
    · intro hnone
      simp [GoMap.getD, hnone]

/-- C4 at work: with no set and no module known to the name lookups, the
scenario page is still answered, every name being the empty string. -/
theorem missing_name_is_empty_string_witness :
    ListBizHostsTopo scenarioNamelessEnv 7 scenarioHosts
      = Response.successTopo ⟨2,
          [⟨mkHost 1, [⟨10, "", [⟨100, ""⟩, ⟨101, ""⟩]⟩]⟩,
           ⟨mkHost 2, [⟨20, "", [⟨200, ""⟩]⟩]⟩]⟩ ∧
    ∃ res : HostTopoResult,
      ListBizHostsTopo scenarioNamelessEnv 7 scenarioHosts = Response.successTopo res ∧
      ∀ (i : Nat) (host : MapStr), scenarioHosts.Info[i]? = some host →
        ∀ r ∈ scenarioRows, r.HostID = hostIDOf scenarioNamelessEnv host →
          ∃ ht : HostTopo, res.Info[i]? = some ht ∧
            ∃ g ∈ ht.Topo, g.SetID = r.SetID ∧
              ((GoMap.empty : GoMap Int String).get? r.SetID = none → g.SetName = "") ∧
              ∃ m ∈ g.Module, m.ModuleID = r.ModuleID ∧
                ((GoMap.empty : GoMap Int String).get? r.ModuleID = none →
                  m.ModuleName = "") :=
  ⟨by decide,
   missing_name_is_empty_string scenarioNamelessEnv 7 scenarioHosts [1, 2] scenarioRows
    [] GoMap.empty [] GoMap.empty (by decide) ⟨rfl, rfl, rfl, rfl, rfl, rfl⟩⟩

/-- C5: a topology answer has one `info` entry per host of the page, and the
host record of the `i`-th entry is the `i`-th host record of the page. -/
theorem info_follows_page_order (env : HostEnv) (bizID : Int) (hosts : ListHostResult)
    (res : HostTopoResult)
    (hresp : ListBizHostsTopo env bizID hosts = Response.successTopo res) :
    hosts.Info ≠ [] ∧ res.Info.length = hosts.Info.length ∧
    (∀ i : Nat, (res.Info[i]?).map HostTopo.Host = hosts.Info[i]?) ∧
    res.Info.map HostTopo.Host = hosts.Info := by
  obtain ⟨hne, _, relations, _, setMap, _, moduleMap, _, hfmt⟩ :=
    ListBizHostsTopo_topo_inv env bizID hosts res hresp
  subst hfmt
  have hget : ∀ i : Nat,
      ((formatOutput env hosts (foldRelations relations).relation setMap moduleMap).Info[i]?).map
        HostTopo.Host = hosts.Info[i]? := by
    intro i
    rw [formatOutput_info_getElem?]
    cases hosts.Info[i]? <;> rfl
  refine ⟨hne, formatOutput_info_length _ _ _ _ _, hget, ?_⟩
  apply List.ext_getElem?
  intro i
  rw [List.getElem?_map]
  exact hget i

/-- C5 at work on the scenario page. -/
theorem info_follows_page_order_witness :
    scenarioHosts.Info ≠ [] ∧
    [(⟨mkHost 1, [⟨10, "SetA", [⟨100, "Mod1"⟩, ⟨101, "Mod2"⟩]⟩]⟩ : HostTopo),
      ⟨mkHost 2, [⟨20, "SetB", [⟨200, "Mod3"⟩]⟩]⟩].length = scenarioHosts.Info.length ∧
    (∀ i : Nat,
      ([(⟨mkHost 1, [⟨10, "SetA", [⟨100, "Mod1"⟩, ⟨101, "Mod2"⟩]⟩]⟩ : HostTopo),
        ⟨mkHost 2, [⟨20, "SetB", [⟨200, "Mod3"⟩]⟩]⟩][i]?).map HostTopo.Host
        = scenarioHosts.Info[i]?) ∧
    [(⟨mkHost 1, [⟨10, "SetA", [⟨100, "Mod1"⟩, ⟨101, "Mod2"⟩]⟩]⟩ : HostTopo),
      ⟨mkHost 2, [⟨20, "SetB", [⟨200, "Mod3"⟩]⟩]⟩].map HostTopo.Host = scenarioHosts.Info :=
  info_follows_page_order scenarioEnv 7 scenarioHosts
    ⟨2, [⟨mkHost 1, [⟨10, "SetA", [⟨100, "Mod1"⟩, ⟨101, "Mod2"⟩]⟩]⟩,
         ⟨mkHost 2, [⟨20, "SetB", [⟨200, "Mod3"⟩]⟩]⟩]⟩ (by decide)

/-- C6: whatever the handler answers with success, the listing itself on an
empty page or the assembled topology otherwise, the top-level count is the count
reported by the host listing. -/
theorem count_is_listing_count (env : HostEnv) (bizID : Int) (hosts : ListHostResult) :
    (∀ data : ListHostResult,
      ListBizHostsTopo env bizID hosts = Response.successHosts data →
        data.Count = hosts.Count) ∧
    (∀ res : HostTopoResult,
      ListBizHostsTopo env bizID hosts = Response.successTopo res →
        res.Count = hosts.Count) := by
  constructor
  · intro data h
    unfold ListBizHostsTopo at h
    by_cases hlen : hosts.Info.length = 0
    · rw [if_pos hlen] at h
      cases h
      rfl
    · rw [if_neg hlen] at h
      exfalso
      split at h
      · cases h
      · split at h
        · cases h
        · simp only at h
          split at h
          · cases h
          · split at h
            · cases h
            · split at h
              · cases h
              · split at h
                · cases h
                · cases h
  · intro res h
    obtain ⟨_, _, _, _, _, _, _, _, hfmt⟩ := ListBizHostsTopo_topo_inv env bizID hosts res h
    rw [hfmt]
    rfl

/-- C6 at work: a page of two hosts out of 57 matching hosts is answered with
count 57, and an empty page out of 57 with count 57 as well. -/
theorem count_is_listing_count_witness :
    ListBizHostsTopo scenarioEnv 7 ⟨57, [mkHost 1, mkHost 2]⟩
      = Response.successTopo ⟨57,
          [⟨mkHost 1, [⟨10, "SetA", [⟨100, "Mod1"⟩, ⟨101, "Mod2"⟩]⟩]⟩,
           ⟨mkHost 2, [⟨20, "SetB", [⟨200, "Mod3"⟩]⟩]⟩]⟩ ∧
    ListBizHostsTopo scenarioEnv 7 ⟨57, []⟩ = Response.successHosts ⟨57, []⟩ ∧
    (57 : Int) = (ListHostResult.mk 57 [mkHost 1, mkHost 2]).Count :=
  ⟨by decide, by decide,
   (count_is_listing_count scenarioEnv 7 ⟨57, [mkHost 1, mkHost 2]⟩).2
    ⟨57, [⟨mkHost 1, [⟨10, "SetA", [⟨100, "Mod1"⟩, ⟨101, "Mod2"⟩]⟩]⟩,
          ⟨mkHost 2, [⟨20, "SetB", [⟨200, "Mod3"⟩]⟩]⟩]⟩ (by decide)⟩


/-! ## Lemmas on the batched loop -/

theorem take_succ_set {α : Type} (l : List α) (k : Nat) (v : α) (h : k < l.length) :
    (l.set k v).take (k + 1) = l.take k ++ [v] := by
  induction l generalizing k with
  | nil => simp at h
  | cons a l ih =>
    cases k with
    | zero => simp
    | succ k =>
      simp only [List.length_cons, Nat.add_lt_add_iff_right] at h
      simp [ih k h]

theorem collectIDs_value_aux (G : Option Value → Int × Option Err) (idField : String)
    (rest : List MapStr) (k : Nat) (acc ids : List Int) (hlen : acc.length = k + rest.length)
    (h : (rest.enumFrom k).foldlM (fun ids entry =>
      match G (entry.2.get idField) with
      | (_, some err) => Except.error err
      | (id, none) => Except.ok (ids.set entry.1 id)) acc = Except.ok ids) :
    ids = acc.take k ++ rest.map (fun r => (G (r.get idField)).1) ∧
    ∀ r ∈ rest, (G (r.get idField)).2 = none := by
  induction rest generalizing k acc with
  | nil =>
    simp only [List.enumFrom_nil, List.foldlM_nil, pure, Except.pure, Except.ok.injEq] at h
    subst h
    simp only [List.length_nil, Nat.add_zero] at hlen
    simp [← hlen]
  | cons a rest ih =>
    rw [List.enumFrom_cons, List.foldlM_cons] at h
    rcases hc : G (a.get idField) with ⟨v, e⟩
    simp only [hc] at h
    cases e with
    | some err => simp [bind, Except.bind] at h
    | none =>
      simp only [bind, Except.bind] at h
      have hlen2 : (acc.set k v).length = (k + 1) + rest.length := by
        simp only [List.length_set, hlen, List.length_cons]
        omega
      obtain ⟨hids, hall⟩ := ih (k + 1) (acc.set k v) hlen2 h
      have hk : k < acc.length := by
        rw [hlen]
        simp
      refine ⟨?_, ?_⟩
      · rw [hids, take_succ_set acc k v hk]
        simp [hc]
      · intro r hr
        rcases List.mem_cons.1 hr with h1 | h1
        · subst h1
          rw [hc]
        · exact hall r h1

theorem collectIDs_ok_value (G : Option Value → Int × Option Err) (idField : String)
    (records : List MapStr) (ids : List Int)
    (h : collectIDs G idField records = Except.ok ids) :
    ids = records.map (fun r => (G (r.get idField)).1) ∧
    ∀ r ∈ records, (G (r.get idField)).2 = none := by
  have := collectIDs_value_aux G idField records 0 (List.replicate records.length 0) ids
    (by simp) h
  simpa using this

theorem collectIDs_of_coercible (G : Option Value → Int × Option Err) (idField : String)
    (records : List MapStr) (hall : ∀ r ∈ records, (G (r.get idField)).2 = none) :
    collectIDs G idField records = Except.ok (records.map (fun r => (G (r.get idField)).1)) := by
  have htot := (foldlM_except_total (fun (ids : List Int) (entry : Nat × MapStr) =>
      match G (entry.2.get idField) with
      | (_, some err) => Except.error err
      | (id, none) => Except.ok (ids.set entry.1 id))
    (fun entry => (G (entry.2.get idField)).2 = none)
    (by
      intro b a ha
      rcases hc : G (a.2.get idField) with ⟨v, e⟩
      simp only [hc] at ha
      subst ha
      exact ⟨b.set a.1 v, by simp only [hc]⟩)
    (by
      intro b a ha
      rcases hc : G (a.2.get idField) with ⟨v, e⟩
      simp only [hc] at ha
      cases e with
      | none => exact absurd rfl ha
      | some err => exact ⟨err, by simp only [hc]⟩)
    records.enum (List.replicate records.length 0)).1
    (by
      intro a ha
      exact hall a.2 (List.snd_mem_of_mem_enumFrom ha))
  obtain ⟨ids, hids⟩ := htot
  have hval := (collectIDs_ok_value G idField records ids hids).1
  rw [← hval]
  exact hids

theorem dropColumnLoop_succ_cases {σ : Type} (db : RDB σ)
    (G : Option Value → Int × Option Err) (table versionField idField : String)
    (fuel : Nat) (s : σ) :
    (∃ e s1, db.Find s table (Filter.fieldExists versionField) [idField] 0 step
        = (Except.error e, s1) ∧
      dropColumnLoop db G table versionField idField (fuel + 1) s
        = ⟨Outcome.returned (some e), s1,
            [Event.find table (Filter.fieldExists versionField) [idField] 0 step
              (Except.error e)]⟩) ∨
    (∃ s1, db.Find s table (Filter.fieldExists versionField) [idField] 0 step
        = (Except.ok [], s1) ∧
      dropColumnLoop db G table versionField idField (fuel + 1) s
        = ⟨Outcome.returned none, s1,
            [Event.find table (Filter.fieldExists versionField) [idField] 0 step
              (Except.ok [])]⟩) ∨
    (∃ page s1 e, db.Find s table (Filter.fieldExists versionField) [idField] 0 step
        = (Except.ok page, s1) ∧ page ≠ [] ∧ collectIDs G idField page = Except.error e ∧
      dropColumnLoop db G table versionField idField (fuel + 1) s
        = ⟨Outcome.returned (some e), s1,
            [Event.find table (Filter.fieldExists versionField) [idField] 0 step
              (Except.ok page)]⟩) ∨
    (∃ page s1 ids e s2, db.Find s table (Filter.fieldExists versionField) [idField] 0 step
        = (Except.ok page, s1) ∧ page ≠ [] ∧ collectIDs G idField page = Except.ok ids ∧
      db.DropColumns s1 table (Filter.fieldIn idField ids) [versionField] = (some e, s2) ∧
      dropColumnLoop db G table versionField idField (fuel + 1) s
        = ⟨Outcome.returned (some e), s2,
            [Event.find table (Filter.fieldExists versionField) [idField] 0 step
              (Except.ok page),
             Event.dropColumns table (Filter.fieldIn idField ids) [versionField] (some e)]⟩) ∨
    (∃ page s1 ids s2, db.Find s table (Filter.fieldExists versionField) [idField] 0 step
        = (Except.ok page, s1) ∧ page ≠ [] ∧ collectIDs G idField page = Except.ok ids ∧
      db.DropColumns s1 table (Filter.fieldIn idField ids) [versionField] = (none, s2) ∧
      dropColumnLoop db G table versionField idField (fuel + 1) s
        = (dropColumnLoop db G table versionField idField fuel s2).after
            [Event.find table (Filter.fieldExists versionField) [idField] 0 step
              (Except.ok page),
             Event.dropColumns table (Filter.fieldIn idField ids) [versionField] none]) := by
  rcases hf : db.Find s table (Filter.fieldExists versionField) [idField] 0 step with ⟨res, s1⟩
  cases res with
  | error e =>
    left
    exact ⟨e, s1, rfl, by simp [dropColumnLoop, hf]⟩
  | ok page =>
    right
    by_cases hp : page = []
    · subst hp
      left
      exact ⟨s1, rfl, by simp [dropColumnLoop, hf]⟩
    · right
      have hlen : ¬ page.length = 0 := fun h0 => hp (List.length_eq_zero.1 h0)
      cases hc : collectIDs G idField page with
      | error e =>
        left
        exact ⟨page, s1, e, rfl, hp, hc, by simp [dropColumnLoop, hf, hlen, hc]⟩
      | ok ids =>
        right
        rcases hd : db.DropColumns s1 table (Filter.fieldIn idField ids) [versionField]
          with ⟨dres, s2⟩
        cases dres with
        | some e =>
          left
          exact ⟨page, s1, ids, e, s2, rfl, hp, hc, hd,
            by simp [dropColumnLoop, hf, hlen, hc, hd]⟩
        | none =>
          right
          exact ⟨page, s1, ids, s2, rfl, hp, hc, hd,
            by simp [dropColumnLoop, hf, hlen, hc, hd]⟩

theorem getElem?_singleton_eq_some {α : Type} (a x : α) (i : Nat) :
    [a][i]? = some x ↔ i = 0 ∧ a = x := by
  cases i with
  | zero => simp
  | succ i => simp

theorem getElem?_pair_eq_some {α : Type} (a b x : α) (i : Nat) :
    [a, b][i]? = some x ↔ (i = 0 ∧ a = x) ∨ (i = 1 ∧ b = x) := by
  match i with
  | 0 => simp
  | 1 => simp
  | i + 2 => simp

theorem dropColumnLoop_head {σ : Type} (db : RDB σ)
    (G : Option Value → Int × Option Err) (table versionField idField : String)
    (fuel : Nat) (s : σ) :
    (fuel = 0 ∧
      (dropColumnLoop db G table versionField idField fuel s).outcome = Outcome.running ∧
      (dropColumnLoop db G table versionField idField fuel s).trace = []) ∨
    ∃ res, (dropColumnLoop db G table versionField idField fuel s).trace[0]? = some
      (Event.find table (Filter.fieldExists versionField) [idField] 0 step res) := by
  cases fuel with
  | zero => left; exact ⟨rfl, rfl, rfl⟩
  | succ fuel =>
    right
    rcases dropColumnLoop_succ_cases db G table versionField idField fuel s with
      ⟨e, s1, _, hr⟩ | ⟨s1, _, hr⟩ | ⟨page, s1, e, _, _, _, hr⟩ |
      ⟨page, s1, ids, e, s2, _, _, _, _, hr⟩ | ⟨page, s1, ids, s2, _, _, _, _, hr⟩
    all_goals rw [hr]
    all_goals exact ⟨_, rfl⟩

theorem dropColumnLoop_unfold {σ : Type} (db : RDB σ)
    (G : Option Value → Int × Option Err) (table versionField idField : String) (s : σ) :
    (∃ e s1, db.Find s table (Filter.fieldExists versionField) [idField] 0 step
        = (Except.error e, s1) ∧
      ∀ fuel, dropColumnLoop db G table versionField idField (fuel + 1) s
        = ⟨Outcome.returned (some e), s1,
            [Event.find table (Filter.fieldExists versionField) [idField] 0 step
              (Except.error e)]⟩) ∨
    (∃ page s1, db.Find s table (Filter.fieldExists versionField) [idField] 0 step
        = (Except.ok page, s1) ∧
      ∃ e, ∀ fuel, dropColumnLoop db G table versionField idField (fuel + 1) s
        = ⟨Outcome.returned e, s1,
            [Event.find table (Filter.fieldExists versionField) [idField] 0 step
              (Except.ok page)]⟩) ∨
    (∃ page s1 ids e s2, db.Find s table (Filter.fieldExists versionField) [idField] 0 step
        = (Except.ok page, s1) ∧
      ∀ fuel, dropColumnLoop db G table versionField idField (fuel + 1) s
        = ⟨Outcome.returned (some e), s2,
            [Event.find table (Filter.fieldExists versionField) [idField] 0 step
              (Except.ok page),
             Event.dropColumns table (Filter.fieldIn idField ids) [versionField] (some e)]⟩) ∨
    (∃ page s1 ids s2, db.Find s table (Filter.fieldExists versionField) [idField] 0 step
        = (Except.ok page, s1) ∧
      ∀ fuel, dropColumnLoop db G table versionField idField (fuel + 1) s
        = (dropColumnLoop db G table versionField idField fuel s2).after
            [Event.find table (Filter.fieldExists versionField) [idField] 0 step
              (Except.ok page),
             Event.dropColumns table (Filter.fieldIn idField ids) [versionField] none]) := by
  rcases hf : db.Find s table (Filter.fieldExists versionField) [idField] 0 step with ⟨res, s1⟩
  cases res with
  | error e =>
    left
    exact ⟨e, s1, rfl, fun fuel => by simp [dropColumnLoop, hf]⟩
  | ok page =>
    right
    by_cases hp : page = []
    · subst hp
      left
      exact ⟨[], s1, rfl, none, fun fuel => by simp [dropColumnLoop, hf]⟩
    · have hlen : ¬ page.length = 0 := fun h0 => hp (List.length_eq_zero.1 h0)
      cases hc : collectIDs G idField page with
      | error e =>
        left
        exact ⟨page, s1, rfl, some e, fun fuel => by simp [dropColumnLoop, hf, hlen, hc]⟩
      | ok ids =>
        right
        rcases hd : db.DropColumns s1 table (Filter.fieldIn idField ids) [versionField]
          with ⟨dres, s2⟩
        cases dres with
        | some e =>
          left
          exact ⟨page, s1, ids, e, s2, rfl,
            fun fuel => by simp [dropColumnLoop, hf, hlen, hc, hd]⟩
        | none =>
          right
          exact ⟨page, s1, ids, s2, rfl,
            fun fuel => by simp [dropColumnLoop, hf, hlen, hc, hd]⟩

theorem cons_of_getElem?_zero {α : Type} (l : List α) (a : α) (h : l[0]? = some a) :
    ∃ rest, l = a :: rest := by
  cases l with
  | nil => simp at h
  | cons b rest =>
    simp only [List.getElem?_cons_zero, Option.some.injEq] at h
    exact ⟨rest, by rw [h]⟩

theorem dropColumnLoop_continue {σ : Type} (db : RDB σ)
    (G : Option Value → Int × Option Err) (table versionField idField : String)
    (fuel : Nat) (s : σ) (page : List MapStr) (s1 : σ) (ids : List Int) (s2 : σ)
    (hf : db.Find s table (Filter.fieldExists versionField) [idField] 0 step
      = (Except.ok page, s1))
    (hp : page ≠ []) (hc : collectIDs G idField page = Except.ok ids)
    (hd : db.DropColumns s1 table (Filter.fieldIn idField ids) [versionField] = (none, s2)) :
    dropColumnLoop db G table versionField idField (fuel + 1) s
      = (dropColumnLoop db G table versionField idField fuel s2).after
          [Event.find table (Filter.fieldExists versionField) [idField] 0 step
            (Except.ok page),
           Event.dropColumns table (Filter.fieldIn idField ids) [versionField] none] := by
  have hlen : ¬ page.length = 0 := fun h0 => hp (List.length_eq_zero.1 h0)
  simp [dropColumnLoop, hf, hlen, hc, hd]

theorem dropColumnLoop_progress_aux {σ : Type} (db : RDB σ)
    (G : Option Value → Int × Option Err) (table versionField idField : String)
    (fuel : Nat) (s : σ) :
    (0 < fuel →
      (dropColumnLoop db G table versionField idField fuel s).trace[0]? = some
        (Event.find table (Filter.fieldExists versionField) [idField] 0 step
          (db.Find s table (Filter.fieldExists versionField) [idField] 0 step).1)) ∧
    ((dropColumnLoop db G table versionField idField fuel s).outcome = Outcome.running →
      (dropColumnLoop db G table versionField idField fuel s).trace.length = 2 * fuel) ∧
    (∀ e, (dropColumnLoop db G table versionField idField fuel s).outcome
        = Outcome.returned e →
      dropColumnLoop db G table versionField idField (fuel + 1) s
        = dropColumnLoop db G table versionField idField fuel s) ∧
    ((dropColumnLoop db G table versionField idField fuel s).outcome = Outcome.running →
      ∃ res rest, (dropColumnLoop db G table versionField idField (fuel + 1) s).trace
        = (dropColumnLoop db G table versionField idField fuel s).trace ++
          Event.find table (Filter.fieldExists versionField) [idField] 0 step res :: rest) := by
  induction fuel generalizing s with
  | zero =>
    refine ⟨fun h => absurd h (Nat.lt_irrefl 0), fun _ => rfl, ?_, ?_⟩
    · intro e h
      cases h
    · intro _
      rcases dropColumnLoop_head db G table versionField idField 1 s with
        ⟨h0, _, _⟩ | ⟨res, hres⟩
      · cases h0
      · obtain ⟨rest, hrest⟩ := cons_of_getElem?_zero _ _ hres
        exact ⟨res, rest, by rw [hrest]; rfl⟩
  | succ fuel ih =>
    rcases dropColumnLoop_unfold db G table versionField idField s with
      ⟨e, s1, hf, hr⟩ | ⟨page, s1, hf, e, hr⟩ | ⟨page, s1, ids, e, s2, hf, hr⟩ |
      ⟨page, s1, ids, s2, hf, hr⟩
    · rw [hr fuel, hr (fuel + 1), hf]
      refine ⟨fun _ => rfl, ?_, fun _ _ => rfl, ?_⟩
      · intro h; cases h
      · intro h; cases h
    · rw [hr fuel, hr (fuel + 1), hf]
      refine ⟨fun _ => rfl, ?_, fun _ _ => rfl, ?_⟩
      · intro h; cases h
      · intro h; cases h
    · rw [hr fuel, hr (fuel + 1), hf]
      refine ⟨fun _ => rfl, ?_, fun _ _ => rfl, ?_⟩
      · intro h; cases h
      · intro h; cases h
    · rw [hr fuel, hr (fuel + 1), hf]
      obtain ⟨_, ih2, ih3, ih4⟩ := ih s2
      refine ⟨fun _ => rfl, ?_, ?_, ?_⟩
      · intro h
        have := ih2 h
        simp only [Run.after, List.cons_append, List.nil_append, List.length_cons, this]
        omega
      · intro e h
        have := ih3 e h
        rw [this]
      · intro h
        obtain ⟨res, rest, hrest⟩ := ih4 h
        refine ⟨res, rest, ?_⟩
        simp only [Run.after, List.cons_append, List.nil_append, hrest]

theorem dropColumnLoop_progress {σ : Type} (db : RDB σ)
    (G : Option Value → Int × Option Err) (table versionField idField : String)
    (fuel : Nat) (s : σ) :
    LoopProgress db G table versionField idField
      (dropColumnLoop db G table versionField idField) fuel s := by
  obtain ⟨h1, h2, h3, h4⟩ := dropColumnLoop_progress_aux db G table versionField idField fuel s
  exact ⟨h1, h2, h3, h4, fun page s1 ids s2 hf hp hc hd =>
    dropColumnLoop_continue db G table versionField idField fuel s page s1 ids s2 hf hp hc hd⟩

theorem dropColumnLoop_discipline {σ : Type} (db : RDB σ)
    (G : Option Value → Int × Option Err) (table versionField idField : String)
    (fuel : Nat) (s : σ) :
    LoopDiscipline G table versionField idField fuel
      (dropColumnLoop db G table versionField idField fuel s) := by
  induction fuel generalizing s with
  | zero =>
    unfold LoopDiscipline
    simp [dropColumnLoop]
  | succ fuel ih =>
    rcases dropColumnLoop_succ_cases db G table versionField idField fuel s with
      ⟨e, s1, _, hr⟩ | ⟨s1, _, hr⟩ | ⟨page, s1, e, _, hp, hc, hr⟩ |
      ⟨page, s1, ids, e, s2, _, hp, hc, _, hr⟩ | ⟨page, s1, ids, s2, _, hp, hc, _, hr⟩
    · rw [hr]
      unfold LoopDiscipline
      simp only [getElem?_singleton_eq_some]
      refine ⟨by simp, ?_, ?_, ?_, ?_⟩
      · rintro i tbl flt flds st lim res ⟨_, h⟩
        simp only [Event.find.injEq] at h
        obtain ⟨h1, h2, h3, h4, h5, _⟩ := h
        exact ⟨h1.symm, h2.symm, h3.symm, h4.symm, h5.symm⟩
      · rintro i ⟨_, h⟩
        simp at h
      · rintro i page ⟨_, h⟩
        simp at h
      · rintro i e' ⟨hi, h⟩
        simp only [Event.find.injEq, Except.error.injEq, true_and] at h
        subst h
        subst hi
        simp
    · rw [hr]
      unfold LoopDiscipline
      simp only [getElem?_singleton_eq_some]
      refine ⟨fun _ => ⟨[], rfl⟩, ?_, ?_, ?_, ?_⟩
      · rintro i tbl flt flds st lim res ⟨_, h⟩
        simp only [Event.find.injEq] at h
        obtain ⟨h1, h2, h3, h4, h5, _⟩ := h
        exact ⟨h1.symm, h2.symm, h3.symm, h4.symm, h5.symm⟩
      · rintro i ⟨hi, _⟩
        subst hi
        simp
      · rintro i page ⟨_, h⟩ hne
        simp only [Event.find.injEq, Except.ok.injEq, true_and] at h
        exact absurd h.symm hne
      · rintro i e' ⟨_, h⟩
        simp at h
    · rw [hr]
      unfold LoopDiscipline
      simp only [getElem?_singleton_eq_some]
      refine ⟨by simp, ?_, ?_, ?_, ?_⟩
      · rintro i tbl flt flds st lim res ⟨_, h⟩
        simp only [Event.find.injEq] at h
        obtain ⟨h1, h2, h3, h4, h5, _⟩ := h
        exact ⟨h1.symm, h2.symm, h3.symm, h4.symm, h5.symm⟩
      · rintro i ⟨_, h⟩
        simp only [Event.find.injEq, Except.ok.injEq, true_and] at h
        exact absurd h hp
      · rintro i page' ⟨hi, h⟩ _
        simp only [Event.find.injEq, Except.ok.injEq, true_and] at h
        subst h
        subst hi
        refine ⟨?_, ?_⟩
        · intro e' he'
          rw [hc] at he'
          cases he'
          simp
        · intro ids' hids'
          rw [hc] at hids'
          cases hids'
      · rintro i e' ⟨_, h⟩
        simp at h
    · rw [hr]
      unfold LoopDiscipline
      simp only [getElem?_pair_eq_some]
      refine ⟨by simp, ?_, ?_, ?_, ?_⟩
      · rintro i tbl flt flds st lim res (⟨_, h⟩ | ⟨_, h⟩)
        · simp only [Event.find.injEq] at h
          obtain ⟨h1, h2, h3, h4, h5, _⟩ := h
          exact ⟨h1.symm, h2.symm, h3.symm, h4.symm, h5.symm⟩
        · cases h
      · rintro i (⟨_, h⟩ | ⟨_, h⟩)
        · simp only [Event.find.injEq, Except.ok.injEq, true_and] at h
          exact absurd h hp
        · cases h
      · rintro i page' (⟨hi, h⟩ | ⟨_, h⟩) _
        · simp only [Event.find.injEq, Except.ok.injEq, true_and] at h
          subst h
          subst hi
          refine ⟨?_, ?_⟩
          · intro e' he'
            rw [hc] at he'
            cases he'
          · intro ids' hids'
            rw [hc] at hids'
            cases hids'
            refine ⟨some e, by simp, ?_, by simp⟩
            intro e' he'
            cases he'
            simp
        · cases h
      · rintro i e' (⟨_, h⟩ | ⟨_, h⟩)
        · simp at h
        · cases h
    · rw [hr]
      obtain ⟨ih1, ih2, ih3, ih4, ih5⟩ := ih s2
      have hhead := dropColumnLoop_head db G table versionField idField fuel s2
      generalize dropColumnLoop db G table versionField idField fuel s2 = r' at *
      unfold LoopDiscipline
      simp only [Run.after, List.cons_append, List.nil_append]
      refine ⟨?_, ?_, ?_, ?_, ?_⟩
      · intro hout
        obtain ⟨before, hb⟩ := ih1 hout
        exact ⟨_ :: _ :: before, by rw [hb]; rfl⟩
      · intro i tbl flt flds st lim res h
        match i with
        | 0 =>
          simp only [List.getElem?_cons_zero, Option.some.injEq, Event.find.injEq] at h
          obtain ⟨h1, h2, h3, h4, h5, _⟩ := h
          exact ⟨h1.symm, h2.symm, h3.symm, h4.symm, h5.symm⟩
        | 1 => simp at h
        | i + 2 =>
          simp only [List.getElem?_cons_succ] at h
          exact ih2 i tbl flt flds st lim res h
      · intro i h
        match i with
        | 0 =>
          simp only [List.getElem?_cons_zero, Option.some.injEq, Event.find.injEq,
            Except.ok.injEq, true_and] at h
          exact absurd h hp
        | 1 => simp at h
        | i + 2 =>
          simp only [List.getElem?_cons_succ] at h
          obtain ⟨h1, h2⟩ := ih3 i h
          exact ⟨h1, by simp [h2]⟩
      · intro i page' h hne
        match i with
        | 0 =>
          simp only [List.getElem?_cons_zero, Option.some.injEq, Event.find.injEq,
            Except.ok.injEq, true_and] at h
          subst h
          refine ⟨?_, ?_⟩
          · intro e' he'
            rw [hc] at he'
            cases he'
          · intro ids' hids'
            rw [hc] at hids'
            cases hids'
            refine ⟨none, by simp, by simp, ?_⟩
            intro _
            rcases hhead with ⟨hzero, hrun, hnil⟩ | ⟨res, hres⟩
            · right
              exact ⟨hrun, by simp [hnil], by omega⟩
            · left
              exact ⟨res, by simpa using hres⟩
        | 1 => simp at h
        | i + 2 =>
          simp only [List.getElem?_cons_succ] at h
          obtain ⟨h1, h2⟩ := ih4 i page' h hne
          refine ⟨?_, ?_⟩
          · intro e' he'
            obtain ⟨h3, h4⟩ := h1 e' he'
            exact ⟨h3, by simp [h4]⟩
          · intro ids' hids'
            obtain ⟨dropped, hd1, hd2, hd3⟩ := h2 ids' hids'
            refine ⟨dropped, by simpa using hd1, ?_, ?_⟩
            · intro e' he'
              obtain ⟨h3, h4⟩ := hd2 e' he'
              exact ⟨h3, by simp [h4]⟩
            · intro hnone
              rcases hd3 hnone with ⟨res, hres⟩ | ⟨hrun, hl, hlast⟩
              · left
                exact ⟨res, by simpa using hres⟩
              · right
                exact ⟨hrun, by simp [hl], by omega⟩
      · intro i e' h
        match i with
        | 0 => simp at h
        | 1 => simp at h
        | i + 2 =>
          simp only [List.getElem?_cons_succ] at h
          obtain ⟨h1, h2⟩ := ih5 i e' h
          exact ⟨h1, by simp [h2]⟩

/-! ## Lemmas on the in-memory collection -/

theorem lookup_filter_key (l : List (String × Value)) (key : String) :
    (l.filter (fun p => [key].contains p.1)).lookup key = l.lookup key := by
  simp only [List.contains_cons, List.contains_nil, Bool.or_false]
  induction l with
  | nil => rfl
  | cons p l ih =>
    obtain ⟨a, b⟩ := p
    rw [List.filter_cons]
    by_cases h : a = key
    · subst h
      simp
    · have h1 : (key == a) = false := by simpa using fun e => h e.symm
      have h2 : (a == key) = false := by simpa using h
      simp only [h2, Bool.false_eq_true, if_false, List.lookup_cons, h1]
      exact ih

theorem project_get (r : MapStr) (key : String) : (r.project [key]).get key = r.get key := by
  unfold MapStr.project MapStr.get
  exact lookup_filter_key r.fields key

theorem lookup_filter_not_key (l : List (String × Value)) (key : String) :
    (l.filter (fun p => !(List.contains [key] p.1))).lookup key = none := by
  simp only [List.contains_cons, List.contains_nil, Bool.or_false]
  induction l with
  | nil => rfl
  | cons p l ih =>
    obtain ⟨a, b⟩ := p
    rw [List.filter_cons]
    by_cases h : a = key
    · subst h
      simp only [beq_self_eq_true, Bool.not_true, Bool.false_eq_true, if_false]
      exact ih
    · have h1 : (key == a) = false := by simpa using fun e => h e.symm
      have h2 : (a == key) = false := by simpa using h
      simp only [h2, Bool.not_false, if_true, List.lookup_cons, h1]
      exact ih

theorem dropColumns_has (r : MapStr) (key : String) : (r.dropColumns [key]).has key = false := by
  unfold MapStr.dropColumns MapStr.has MapStr.get
  simp only
  rw [lookup_filter_not_key]
  rfl

theorem pending_afterDrop (G : Option Value → Int × Option Err)
    (versionField idField : String) (ids : List Int) (s : List MapStr) :
    pending versionField (afterDrop G versionField idField ids s)
      = (pending versionField s).filter
          (fun r => !memMatches G (Filter.fieldIn idField ids) r) := by
  unfold afterDrop pending memRDB
  simp only
  induction s with
  | nil => rfl
  | cons r s ih =>
    simp only [List.map_cons, List.filter_cons]
    by_cases hm : memMatches G (Filter.fieldIn idField ids) r = true
    · simp only [hm, if_true, dropColumns_has, Bool.false_eq_true, if_false]
      by_cases hh : r.has versionField = true
      · simp [hh, hm, ih]
      · simp [hh, ih]
    · simp only [hm, Bool.false_eq_true, if_false]
      by_cases hh : r.has versionField = true
      · simp [hh, hm, ih]
      · simp [hh, ih]

theorem memMatches_in_of_coercible (G : Option Value → Int × Option Err) (idField : String)
    (ids : List Int) (r : MapStr) (h : (G (r.get idField)).2 = none) :
    memMatches G (Filter.fieldIn idField ids) r = ids.contains (G (r.get idField)).1 := by
  rcases hc : G (r.get idField) with ⟨v, e⟩
  rw [hc] at h
  simp only at h
  subst h
  simp only [memMatches, hc]

theorem pending_afterDrop_coercible (G : Option Value → Int × Option Err)
    (versionField idField : String) (ids : List Int) (s : List MapStr)
    (hco : Coercible G versionField idField s) :
    pending versionField (afterDrop G versionField idField ids s)
      = (pending versionField s).filter
          (fun r => !ids.contains (G (r.get idField)).1) := by
  rw [pending_afterDrop]
  apply List.filter_congr
  intro r hr
  rw [memMatches_in_of_coercible G idField ids r (hco r hr)]

theorem filter_not_in_take_ids {α : Type} (f : α → Int) (l : List α) (n : Nat)
    (hnd : (l.map f).Nodup) :
    l.filter (fun r => !((l.take n).map f).contains (f r)) = l.drop n := by
  induction l generalizing n with
  | nil => simp
  | cons a l ih =>
    cases n with
    | zero => simp
    | succ n =>
      simp only [List.map_cons, List.nodup_cons] at hnd
      simp only [List.take_succ_cons, List.map_cons, List.drop_succ_cons, List.filter_cons,
        List.contains_cons, beq_self_eq_true, Bool.true_or, Bool.not_true, Bool.false_eq_true,
        if_false]
      rw [← ih n hnd.2]
      apply List.filter_congr
      intro r hr
      have hne : ¬ f r = f a := by
        intro e
        exact hnd.1 (e ▸ List.mem_map_of_mem f hr)
      have : (f r == f a) = false := by simpa using hne
      simp [this]

theorem coercible_afterDrop (G : Option Value → Int × Option Err)
    (versionField idField : String) (ids : List Int) (s : List MapStr)
    (hco : Coercible G versionField idField s) :
    Coercible G versionField idField (afterDrop G versionField idField ids s) := by
  intro r hr
  rw [pending_afterDrop] at hr
  exact hco r (List.mem_filter.1 hr).1

theorem step_pos : 0 < step := by decide

theorem memFind_exists (G : Option Value → Int × Option Err)
    (table versionField : String) (fields : List String) (limit : Nat) (s : List MapStr) :
    (memRDB G).Find s table (Filter.fieldExists versionField) fields 0 limit
      = (Except.ok (((pending versionField s).take limit).map (MapStr.project fields)), s) :=
  rfl

theorem memLoop_done (G : Option Value → Int × Option Err)
    (table versionField idField : String) (fuel : Nat) (s : List MapStr)
    (hdone : pending versionField s = []) :
    dropColumnLoop (memRDB G) G table versionField idField (fuel + 1) s
      = ⟨Outcome.returned none, s,
          [Event.find table (Filter.fieldExists versionField) [idField] 0 step
            (Except.ok [])]⟩ := by
  have hfind : (memRDB G).Find s table (Filter.fieldExists versionField) [idField] 0 step
      = (Except.ok [], s) := by
    rw [memFind_exists, hdone]
    rfl
  rcases dropColumnLoop_succ_cases (memRDB G) G table versionField idField fuel s with
    ⟨e, s1, hf, _⟩ | ⟨s1, hf, hr⟩ | ⟨page, s1, e, hf, hp, _, _⟩ |
    ⟨page, s1, ids, e, s2, hf, hp, _, _, _⟩ | ⟨page, s1, ids, s2, hf, hp, _, _, _⟩
  · rw [hfind] at hf; cases hf
  · rw [hfind] at hf
    cases hf
    exact hr
  · rw [hfind] at hf; cases hf; exact absurd rfl hp
  · rw [hfind] at hf; cases hf; exact absurd rfl hp
  · rw [hfind] at hf; cases hf; exact absurd rfl hp

theorem memLoop_step (G : Option Value → Int × Option Err)
    (table versionField idField : String) (fuel : Nat) (s : List MapStr)
    (hco : Coercible G versionField idField s) (hne : pending versionField s ≠ []) :
    dropColumnLoop (memRDB G) G table versionField idField (fuel + 1) s
      = (dropColumnLoop (memRDB G) G table versionField idField fuel
          (afterDrop G versionField idField
            (idsOf G idField ((pending versionField s).take step)) s)).after
          [Event.find table (Filter.fieldExists versionField) [idField] 0 step
            (Except.ok (((pending versionField s).take step).map (MapStr.project [idField]))),
           Event.dropColumns table
            (Filter.fieldIn idField (idsOf G idField ((pending versionField s).take step)))
            [versionField] none] := by
  have hfind : (memRDB G).Find s table (Filter.fieldExists versionField) [idField] 0 step
      = (Except.ok (((pending versionField s).take step).map (MapStr.project [idField])), s) :=
    memFind_exists G table versionField [idField] step s
  have hcollect : collectIDs G idField
      (((pending versionField s).take step).map (MapStr.project [idField]))
      = Except.ok (idsOf G idField ((pending versionField s).take step)) := by
    rw [collectIDs_of_coercible]
    · unfold idsOf
      rw [List.map_map]
      congr 1
      apply List.map_congr_left
      intro r _
      simp [project_get]
    · intro r hr
      obtain ⟨r0, hr0, rfl⟩ := List.mem_map.1 hr
      rw [project_get]
      exact hco r0 (List.mem_of_mem_take hr0)
  rcases dropColumnLoop_succ_cases (memRDB G) G table versionField idField fuel s with
    ⟨e, s1, hf, _⟩ | ⟨s1, hf, _⟩ | ⟨page, s1, e, hf, _, hc, _⟩ |
    ⟨page, s1, ids, e, s2, hf, _, _, hd, _⟩ | ⟨page, s1, ids, s2, hf, _, hc, hd, hr⟩
  · rw [hfind] at hf; cases hf
  · rw [hfind] at hf
    simp only [Prod.mk.injEq, Except.ok.injEq, List.map_eq_nil_iff, List.take_eq_nil_iff] at hf
    rcases hf.1 with h0 | h0
    · exact absurd h0 (Nat.pos_iff_ne_zero.1 step_pos)
    · exact absurd h0 hne
  · rw [hfind] at hf
    cases hf
    rw [hcollect] at hc
    cases hc
  · cases hd
  · rw [hfind] at hf
    cases hf
    rw [hcollect] at hc
    cases hc
    rw [hr]
    cases hd
    rfl


theorem idsOf_project (G : Option Value → Int × Option Err) (idField : String)
    (l : List MapStr) :
    idsOf G idField (l.map (MapStr.project [idField])) = idsOf G idField l := by
  unfold idsOf
  rw [List.map_map]
  apply List.map_congr_left
  intro r _
  simp [project_get]

theorem memStep_decreases (G : Option Value → Int × Option Err)
    (versionField idField : String) (s : List MapStr)
    (hco : Coercible G versionField idField s) (hne : pending versionField s ≠ []) :
    (pending versionField (afterDrop G versionField idField
      (idsOf G idField ((pending versionField s).take step)) s)).length
      < (pending versionField s).length := by
  rw [pending_afterDrop_coercible G versionField idField _ s hco]
  rw [List.length_filter_lt_length_iff_exists]
  cases hp : pending versionField s with
  | nil => exact absurd hp hne
  | cons r0 rest =>
    refine ⟨r0, List.mem_cons_self _ _, ?_⟩
    have hstep : step = (step - 1) + 1 := by decide
    rw [hstep]
    simp [idsOf]

theorem memStep_nodup (G : Option Value → Int × Option Err)
    (versionField idField : String) (s : List MapStr)
    (hco : Coercible G versionField idField s)
    (hnd : (idsOf G idField (pending versionField s)).Nodup) :
    pending versionField (afterDrop G versionField idField
      (idsOf G idField ((pending versionField s).take step)) s)
      = (pending versionField s).drop step := by
  rw [pending_afterDrop_coercible G versionField idField _ s hco]
  exact filter_not_in_take_ids (fun r : MapStr => (G (r.get idField)).1)
    (pending versionField s) step hnd

theorem memLoop_run (G : Option Value → Int × Option Err)
    (table versionField idField : String) (fuel : Nat) (s : List MapStr)
    (hco : Coercible G versionField idField s)
    (hfuel : (pending versionField s).length < fuel) :
    (dropColumnLoop (memRDB G) G table versionField idField fuel s).outcome
      = Outcome.returned none ∧
    pending versionField
      (dropColumnLoop (memRDB G) G table versionField idField fuel s).store = [] ∧
    ∀ (i : Nat) tbl flt cols dropped,
      (dropColumnLoop (memRDB G) G table versionField idField fuel s).trace[i]?
        = some (Event.dropColumns tbl flt cols dropped) →
      ∃ (j : Nat) (page : List MapStr), i = j + 1 ∧ page ≠ [] ∧
        (dropColumnLoop (memRDB G) G table versionField idField fuel s).trace[j]?
          = some (Event.find table (Filter.fieldExists versionField) [idField] 0 step
              (Except.ok page)) ∧
        tbl = table ∧ flt = Filter.fieldIn idField (idsOf G idField page) ∧
        cols = [versionField] ∧ dropped = none := by
  induction fuel generalizing s with
  | zero => exact absurd hfuel (Nat.not_lt_zero _)
  | succ fuel ih =>
    by_cases hne : pending versionField s = []
    · rw [memLoop_done G table versionField idField fuel s hne]
      refine ⟨rfl, hne, ?_⟩
      intro i tbl flt cols dropped h
      rw [getElem?_singleton_eq_some] at h
      cases h.2
    · rw [memLoop_step G table versionField idField fuel s hco hne]
      have hdec := memStep_decreases G versionField idField s hco hne
      have hco' := coercible_afterDrop G versionField idField
        (idsOf G idField ((pending versionField s).take step)) s hco
      obtain ⟨h1, h2, h3⟩ := ih _ hco' (by omega)
      refine ⟨h1, h2, ?_⟩
      intro i tbl flt cols dropped h
      simp only [Run.after, List.cons_append, List.nil_append] at h ⊢
      match i with
      | 0 => simp at h
      | 1 =>
        simp only [List.getElem?_cons_succ, List.getElem?_cons_zero, Option.some.injEq,
          Event.dropColumns.injEq] at h
        obtain ⟨e1, e2, e3, e4⟩ := h
        refine ⟨0, _, rfl, ?_, rfl, e1.symm, ?_, e3.symm, e4.symm⟩
        · intro hnil
          rw [List.map_eq_nil_iff, List.take_eq_nil_iff] at hnil
          rcases hnil with h0 | h0
          · exact absurd h0 (Nat.pos_iff_ne_zero.1 step_pos)
          · exact hne h0
        · rw [idsOf_project]
          exact e2.symm
      | i + 2 =>
        simp only [List.getElem?_cons_succ] at h
        obtain ⟨j, page, hj, hp, hfetch, rest⟩ := h3 i tbl flt cols dropped h
        refine ⟨j + 2, page, by omega, hp, ?_, rest⟩
        simpa using hfetch

theorem memLoop_three_pages (G : Option Value → Int × Option Err)
    (table versionField idField : String) (s : List MapStr)
    (hco : Coercible G versionField idField s)
    (hnd : (idsOf G idField (pending versionField s)).Nodup)
    (hlen : (pending versionField s).length = 2 * step + 1) :
    (∀ fuel, 4 ≤ fuel →
      (dropColumnLoop (memRDB G) G table versionField idField fuel s).outcome
        = Outcome.returned none ∧
      fetchSizes (dropColumnLoop (memRDB G) G table versionField idField fuel s).trace
        = [step, step, 1, 0] ∧
      fetchCount (dropColumnLoop (memRDB G) G table versionField idField fuel s).trace = 4 ∧
      dropCount (dropColumnLoop (memRDB G) G table versionField idField fuel s).trace = 3 ∧
      pending versionField
        (dropColumnLoop (memRDB G) G table versionField idField fuel s).store = []) ∧
    (∀ fuel, fuel < 4 →
      (dropColumnLoop (memRDB G) G table versionField idField fuel s).outcome
        = Outcome.running) := by
  have hne : pending versionField s ≠ [] := by
    intro h0
    rw [h0] at hlen
    simp at hlen
  have hp1 := memStep_nodup G versionField idField s hco hnd
  have hco1 := coercible_afterDrop G versionField idField
    (idsOf G idField ((pending versionField s).take step)) s hco
  generalize hs1 : afterDrop G versionField idField
    (idsOf G idField ((pending versionField s).take step)) s = s1 at hp1 hco1
  have hlen1 : (pending versionField s1).length = step + 1 := by
    rw [hp1, List.length_drop, hlen]
    omega
  have hnd1 : (idsOf G idField (pending versionField s1)).Nodup := by
    rw [hp1]
    exact hnd.sublist ((List.drop_sublist _ _).map _)
  have hne1 : pending versionField s1 ≠ [] := by
    intro h0
    rw [h0] at hlen1
    simp at hlen1
  have hp2 := memStep_nodup G versionField idField s1 hco1 hnd1
  have hco2 := coercible_afterDrop G versionField idField
    (idsOf G idField ((pending versionField s1).take step)) s1 hco1
  generalize hs2 : afterDrop G versionField idField
    (idsOf G idField ((pending versionField s1).take step)) s1 = s2 at hp2 hco2
  have hlen2 : (pending versionField s2).length = 1 := by
    rw [hp2, List.length_drop, hlen1]
    omega
  have hnd2 : (idsOf G idField (pending versionField s2)).Nodup := by
    rw [hp2]
    exact hnd1.sublist ((List.drop_sublist _ _).map _)
  have hne2 : pending versionField s2 ≠ [] := by
    intro h0
    rw [h0] at hlen2
    simp at hlen2
  have hp3 := memStep_nodup G versionField idField s2 hco2 hnd2
  generalize hs3 : afterDrop G versionField idField
    (idsOf G idField ((pending versionField s2).take step)) s2 = s3 at hp3
  have hdone : pending versionField s3 = [] := by
    rw [hp3]
    apply List.drop_eq_nil_of_le
    rw [hlen2]
    exact step_pos
  have hsz0 : (((pending versionField s).take step).map (MapStr.project [idField])).length
      = step := by
    rw [List.length_map, List.length_take, hlen]
    omega
  have hsz1 : (((pending versionField s1).take step).map (MapStr.project [idField])).length
      = step := by
    rw [List.length_map, List.length_take, hlen1]
    omega
  have hsz2 : (((pending versionField s2).take step).map (MapStr.project [idField])).length
      = 1 := by
    rw [List.length_map, List.length_take, hlen2]
    have := step_pos
    omega
  refine ⟨?_, ?_⟩
  · intro fuel hfuel
    obtain ⟨f, rfl⟩ : ∃ f, fuel = f + 4 := ⟨fuel - 4, by omega⟩
    rw [memLoop_step G table versionField idField (f + 3) s hco hne, hs1,
      memLoop_step G table versionField idField (f + 2) s1 hco1 hne1, hs2,
      memLoop_step G table versionField idField (f + 1) s2 hco2 hne2, hs3,
      memLoop_done G table versionField idField f s3 hdone]
    simp only [Run.after, List.cons_append, List.nil_append, fetchSizes, fetchCount, dropCount,
      hsz0, hsz1, hsz2, List.length_nil]
    exact ⟨trivial, trivial, trivial, trivial, hdone⟩
  · intro fuel hfuel
    match fuel with
    | 0 => rfl
    | 1 =>
      rw [memLoop_step G table versionField idField 0 s hco hne]
      rfl
    | 2 =>
      rw [memLoop_step G table versionField idField 1 s hco hne, hs1,
        memLoop_step G table versionField idField 0 s1 hco1 hne1]
      rfl
    | 3 =>
      rw [memLoop_step G table versionField idField 2 s hco hne, hs1,
        memLoop_step G table versionField idField 1 s1 hco1 hne1, hs2,
        memLoop_step G table versionField idField 0 s2 hco2 hne2]
      rfl
    | n + 4 => omega


theorem mkVersioned_has (idField versionField : String) (id : Int) :
    (mkVersioned idField versionField id).has versionField = true := by
  unfold mkVersioned MapStr.has MapStr.get
  by_cases h : versionField = idField
  · subst h; simp
  · have : (versionField == idField) = false := by simpa using h
    simp [List.lookup_cons, this]

theorem mkVersioned_id (idField versionField : String) (id : Int) :
    sampleGetInt64 ((mkVersioned idField versionField id).get idField) = (id, none) := by
  unfold mkVersioned MapStr.get
  simp [sampleGetInt64]

theorem pending_versionedRecords (idField versionField : String) (n : Nat) :
    pending versionField (versionedRecords idField versionField n)
      = versionedRecords idField versionField n := by
  unfold pending
  rw [List.filter_eq_self]
  intro r hr
  unfold versionedRecords at hr
  obtain ⟨i, _, rfl⟩ := List.mem_map.1 hr
  exact mkVersioned_has idField versionField _

theorem coercible_versionedRecords (idField versionField : String) (n : Nat) :
    Coercible sampleGetInt64 versionField idField (versionedRecords idField versionField n) := by
  intro r hr
  rw [pending_versionedRecords] at hr
  unfold versionedRecords at hr
  obtain ⟨i, _, rfl⟩ := List.mem_map.1 hr
  rw [mkVersioned_id]

theorem idsOf_versionedRecords (idField versionField : String) (n : Nat) :
    idsOf sampleGetInt64 idField (versionedRecords idField versionField n)
      = (List.range n).map Int.ofNat := by
  unfold idsOf versionedRecords
  rw [List.map_map]
  apply List.map_congr_left
  intro i _
  simp [mkVersioned_id]

theorem nodup_versionedRecords (idField versionField : String) (n : Nat) :
    (idsOf sampleGetInt64 idField
      (pending versionField (versionedRecords idField versionField n))).Nodup := by
  rw [pending_versionedRecords, idsOf_versionedRecords]
  exact (List.nodup_range n).map Int.ofNat_injective

theorem length_versionedRecords (idField versionField : String) (n : Nat) :
    (pending versionField (versionedRecords idField versionField n)).length = n := by
  rw [pending_versionedRecords]
  simp [versionedRecords]

/-! ## Claims on the migrators -/

theorem memLoop_full_page (G : Option Value → Int × Option Err)
    (table versionField idField : String) (s : List MapStr)
    (hco : Coercible G versionField idField s)
    (hnd : (idsOf G idField (pending versionField s)).Nodup)
    (hlen : (pending versionField s).length = step) :
    (dropColumnLoop (memRDB G) G table versionField idField 1 s).outcome = Outcome.running ∧
    fetchSizes (dropColumnLoop (memRDB G) G table versionField idField 1 s).trace = [step] ∧
    (dropColumnLoop (memRDB G) G table versionField idField 2 s).outcome
      = Outcome.returned none ∧
    fetchSizes (dropColumnLoop (memRDB G) G table versionField idField 2 s).trace
      = [step, 0] := by
  have hne : pending versionField s ≠ [] := by
    intro h0
    rw [h0] at hlen
    exact absurd hlen.symm (Nat.pos_iff_ne_zero.1 step_pos)
  have hp1 := memStep_nodup G versionField idField s hco hnd
  generalize hs1 : afterDrop G versionField idField
    (idsOf G idField ((pending versionField s).take step)) s = s1 at hp1
  have hdone : pending versionField s1 = [] := by
    rw [hp1]
    apply List.drop_eq_nil_of_le
    rw [hlen]
  have hsz : (((pending versionField s).take step).map (MapStr.project [idField])).length
      = step := by
    rw [List.length_map, List.length_take, hlen]
    omega
  refine ⟨?_, ?_, ?_, ?_⟩
  · rw [memLoop_step G table versionField idField 0 s hco hne]
    rfl
  · rw [memLoop_step G table versionField idField 0 s hco hne]
    simp only [Run.after, List.cons_append, List.nil_append, fetchSizes, hsz, dropColumnLoop]
  · rw [memLoop_step G table versionField idField 1 s hco hne, hs1,
      memLoop_done G table versionField idField 0 s1 hdone]
    rfl
  · rw [memLoop_step G table versionField idField 1 s hco hne, hs1,
      memLoop_done G table versionField idField 0 s1 hdone]
    simp only [Run.after, List.cons_append, List.nil_append, fetchSizes, hsz, List.length_nil]

/-- C7: in `dropVersionColumn` and in `dropSetTplVersionColumn`, over any store
and for any bound on the iterations, the trace of the run obeys the loop
discipline and the bound does nothing but cut the loop short.  The run returns
`nil` only right after a fetch that returned no record; every fetch is at offset
0 with limit `step`; a fetch that returned a non-empty page, of whatever size,
is followed (unless an identifier fails to coerce) by one `DropColumns` on the
page's identifiers and then (unless that fails) by another fetch, which is
missing only when the `DropColumns` closed the last iteration the bound allows.
With a bound above 0 the run starts with the fetch the store answers; it is
still going only after as many completed iterations as the bound allows; and a
bound larger by one leaves a run that returned as it is and continues a run
still going with another fetch; and after a successful iteration the run goes on
from the store that the `DropColumns` left. -/
theorem loop_ends_only_on_empty_page {σ : Type} (env : MigrateEnv σ) (fuel : Nat) (s : σ) :
    (LoopDiscipline env.GetInt64ByInterface env.common.BKTableNameSetTemplate "version"
        env.common.BKFieldID fuel (dropVersionColumn env fuel s) ∧
      LoopProgress env.db env.GetInt64ByInterface env.common.BKTableNameSetTemplate "version"
        env.common.BKFieldID (dropVersionColumn env) fuel s) ∧
    (LoopDiscipline env.GetInt64ByInterface env.common.BKTableNameBaseSet
        env.common.BKSetTemplateVersionField env.common.BKSetIDField fuel
        (dropSetTplVersionColumn env fuel s) ∧
      LoopProgress env.db env.GetInt64ByInterface env.common.BKTableNameBaseSet
        env.common.BKSetTemplateVersionField env.common.BKSetIDField
        (dropSetTplVersionColumn env) fuel s) :=
  ⟨⟨dropColumnLoop_discipline env.db env.GetInt64ByInterface _ _ _ fuel s,
    dropColumnLoop_progress env.db env.GetInt64ByInterface _ _ _ fuel s⟩,
   ⟨dropColumnLoop_discipline env.db env.GetInt64ByInterface _ _ _ fuel s,
    dropColumnLoop_progress env.db env.GetInt64ByInterface _ _ _ fuel s⟩⟩

/-- C7 at work on a collection of exactly `step` set templates: after one
iteration, which fetched the full page of `step` records and dropped the field,
the loop is still going; the bound 2 continues that run with one more fetch,
which returns no record, and only then does the run return `nil`. -/
theorem loop_ends_only_on_empty_page_witness :
    (dropVersionColumn (memEnv sampleCommon sampleGetInt64) 1 (setTemplates step)).outcome
      = Outcome.running ∧
    fetchSizes (dropVersionColumn (memEnv sampleCommon sampleGetInt64) 1
      (setTemplates step)).trace = [5000] ∧
    (dropVersionColumn (memEnv sampleCommon sampleGetInt64) 2 (setTemplates step)).outcome
      = Outcome.returned none ∧
    fetchSizes (dropVersionColumn (memEnv sampleCommon sampleGetInt64) 2
      (setTemplates step)).trace = [5000, 0] ∧
    (dropVersionColumn (memEnv sampleCommon sampleGetInt64) 1 (setTemplates step)).trace.length
      = 2 * 1 ∧
    ∃ res rest,
      (dropVersionColumn (memEnv sampleCommon sampleGetInt64) 2 (setTemplates step)).trace
        = (dropVersionColumn (memEnv sampleCommon sampleGetInt64) 1 (setTemplates step)).trace
          ++ Event.find "cc_SetTemplate" (Filter.fieldExists "version") ["id"] 0 step res
            :: rest :=
  ⟨(memLoop_full_page sampleGetInt64 _ _ _ (setTemplates step)
      (coercible_versionedRecords _ _ _) (nodup_versionedRecords _ _ _)
      (length_versionedRecords _ _ _)).1,
   (memLoop_full_page sampleGetInt64 _ _ _ (setTemplates step)
      (coercible_versionedRecords _ _ _) (nodup_versionedRecords _ _ _)
      (length_versionedRecords _ _ _)).2.1,
   (memLoop_full_page sampleGetInt64 _ _ _ (setTemplates step)
      (coercible_versionedRecords _ _ _) (nodup_versionedRecords _ _ _)
      (length_versionedRecords _ _ _)).2.2.1,
   (memLoop_full_page sampleGetInt64 _ _ _ (setTemplates step)
      (coercible_versionedRecords _ _ _) (nodup_versionedRecords _ _ _)
      (length_versionedRecords _ _ _)).2.2.2,
   (loop_ends_only_on_empty_page (memEnv sampleCommon sampleGetInt64) 1
      (setTemplates step)).1.2.2.1
    (memLoop_full_page sampleGetInt64 _ _ _ (setTemplates step)
      (coercible_versionedRecords _ _ _) (nodup_versionedRecords _ _ _)
      (length_versionedRecords _ _ _)).1,
   (loop_ends_only_on_empty_page (memEnv sampleCommon sampleGetInt64) 1
      (setTemplates step)).1.2.2.2.2.1
    (memLoop_full_page sampleGetInt64 _ _ _ (setTemplates step)
      (coercible_versionedRecords _ _ _) (nodup_versionedRecords _ _ _)
      (length_versionedRecords _ _ _)).1⟩

/-- C8 as the code has it: over the in-memory collection, starting with
`2 * step + 1` records that carry the field, with coercible and pairwise
distinct identifiers, both migrators return `nil` for every bound of at least 4
iterations, having issued exactly 4 fetches, of `step`, `step`, 1 and 0 records,
and 3 `DropColumns`; no record carries the field afterwards; and with a bound
below 4 the loop is still running. -/
theorem field_removal_issues_four_fetches (common : Common)
    (G : Option Value → Int × Option Err) (s t : List MapStr)
    (hs : Coercible G "version" common.BKFieldID s)
    (hsnd : (idsOf G common.BKFieldID (pending "version" s)).Nodup)
    (hslen : (pending "version" s).length = 2 * step + 1)
    (ht : Coercible G common.BKSetTemplateVersionField common.BKSetIDField t)
    (htnd : (idsOf G common.BKSetIDField
      (pending common.BKSetTemplateVersionField t)).Nodup)
    (htlen : (pending common.BKSetTemplateVersionField t).length = 2 * step + 1) :
    (∀ fuel, 4 ≤ fuel →
      (dropVersionColumn (memEnv common G) fuel s).outcome = Outcome.returned none ∧
      fetchSizes (dropVersionColumn (memEnv common G) fuel s).trace = [step, step, 1, 0] ∧
      fetchCount (dropVersionColumn (memEnv common G) fuel s).trace = 4 ∧
      dropCount (dropVersionColumn (memEnv common G) fuel s).trace = 3 ∧
      pending "version" (dropVersionColumn (memEnv common G) fuel s).store = []) ∧
    (∀ fuel, fuel < 4 →
      (dropVersionColumn (memEnv common G) fuel s).outcome = Outcome.running) ∧
    (∀ fuel, 4 ≤ fuel →
      (dropSetTplVersionColumn (memEnv common G) fuel t).outcome = Outcome.returned none ∧
      fetchSizes (dropSetTplVersionColumn (memEnv common G) fuel t).trace
        = [step, step, 1, 0] ∧
      fetchCount (dropSetTplVersionColumn (memEnv common G) fuel t).trace = 4 ∧
      dropCount (dropSetTplVersionColumn (memEnv common G) fuel t).trace = 3 ∧
      pending common.BKSetTemplateVersionField
        (dropSetTplVersionColumn (memEnv common G) fuel t).store = []) ∧
    (∀ fuel, fuel < 4 →
      (dropSetTplVersionColumn (memEnv common G) fuel t).outcome = Outcome.running) := by
  obtain ⟨h1, h2⟩ := memLoop_three_pages G common.BKTableNameSetTemplate "version"
    common.BKFieldID s hs hsnd hslen
  obtain ⟨h3, h4⟩ := memLoop_three_pages G common.BKTableNameBaseSet
    common.BKSetTemplateVersionField common.BKSetIDField t ht htnd htlen
  exact ⟨h1, h2, h3, h4⟩

/-- C8 at work on 10001 set templates and 10001 sets. -/
theorem field_removal_issues_four_fetches_witness :
    (∀ fuel, 4 ≤ fuel →
      (dropVersionColumn (memEnv sampleCommon sampleGetInt64) fuel
        (setTemplates (2 * step + 1))).outcome = Outcome.returned none ∧
      fetchSizes (dropVersionColumn (memEnv sampleCommon sampleGetInt64) fuel
        (setTemplates (2 * step + 1))).trace = [step, step, 1, 0] ∧
      fetchCount (dropVersionColumn (memEnv sampleCommon sampleGetInt64) fuel
        (setTemplates (2 * step + 1))).trace = 4 ∧
      dropCount (dropVersionColumn (memEnv sampleCommon sampleGetInt64) fuel
        (setTemplates (2 * step + 1))).trace = 3 ∧
      pending "version" (dropVersionColumn (memEnv sampleCommon sampleGetInt64) fuel
        (setTemplates (2 * step + 1))).store = []) ∧
    (∀ fuel, fuel < 4 →
      (dropVersionColumn (memEnv sampleCommon sampleGetInt64) fuel
        (setTemplates (2 * step + 1))).outcome = Outcome.running) :=
  ⟨(field_removal_issues_four_fetches sampleCommon sampleGetInt64
      (setTemplates (2 * step + 1)) (setRecords (2 * step + 1))
      (coercible_versionedRecords _ _ _) (nodup_versionedRecords _ _ _)
      (length_versionedRecords _ _ _) (coercible_versionedRecords _ _ _)
      (nodup_versionedRecords _ _ _) (length_versionedRecords _ _ _)).1,
   (field_removal_issues_four_fetches sampleCommon sampleGetInt64
      (setTemplates (2 * step + 1)) (setRecords (2 * step + 1))
      (coercible_versionedRecords _ _ _) (nodup_versionedRecords _ _ _)
      (length_versionedRecords _ _ _) (coercible_versionedRecords _ _ _)
      (nodup_versionedRecords _ _ _) (length_versionedRecords _ _ _)).2.1⟩

/-- C8 as the spec has it fails: on 10001 set templates with identifiers
0 .. 10000 the run of `dropVersionColumn` that returns has issued 4 fetches, not
3: after the third fetch (one record) and its `DropColumns` the loop is still
running, and it returns only after a fourth fetch, which comes back empty. -/
theorem field_removal_three_fetches_refuted :
    (dropVersionColumn (memEnv sampleCommon sampleGetInt64) 3
      (setTemplates 10001)).outcome = Outcome.running ∧
    (dropVersionColumn (memEnv sampleCommon sampleGetInt64) 4
      (setTemplates 10001)).outcome = Outcome.returned none ∧
    fetchSizes (dropVersionColumn (memEnv sampleCommon sampleGetInt64) 4
      (setTemplates 10001)).trace = [5000, 5000, 1, 0] ∧
    ¬ fetchCount (dropVersionColumn (memEnv sampleCommon sampleGetInt64) 4
      (setTemplates 10001)).trace = 3 := by
  obtain ⟨h1, h2⟩ := memLoop_three_pages sampleGetInt64 sampleCommon.BKTableNameSetTemplate
    "version" sampleCommon.BKFieldID (setTemplates 10001)
    (coercible_versionedRecords _ _ _) (nodup_versionedRecords _ _ _)
    (length_versionedRecords _ _ _)
  obtain ⟨h3, h4, h5, _, _⟩ := h1 4 (Nat.le_refl 4)
  refine ⟨h2 3 (by decide), h3, h4, ?_⟩
  intro h
  have h6 : fetchCount (dropVersionColumn (memEnv sampleCommon sampleGetInt64) 4
      (setTemplates 10001)).trace = 4 := h5
  rw [h6] at h
  exact absurd h (by decide)


/-- C9: over the in-memory collection, when every record that carries
`version` has a coercible identifier, `dropVersionColumn` returns `nil` as soon
as the bound on the iterations exceeds the number of such records, and no record
carries the field then; every `DropColumns` of the run comes right after a fetch
of a non-empty page and is scoped to exactly the identifiers of that page; and
while some record carries the field, one iteration fetches a non-empty page and
leaves strictly fewer such records, in a collection that again meets the
assumption, from which the run goes on. -/
theorem drop_version_terminates (common : Common) (G : Option Value → Int × Option Err)
    (s : List MapStr) (hco : Coercible G "version" common.BKFieldID s) :
    (∀ fuel, (pending "version" s).length < fuel →
      (dropVersionColumn (memEnv common G) fuel s).outcome = Outcome.returned none ∧
      pending "version" (dropVersionColumn (memEnv common G) fuel s).store = [] ∧
      ∀ (i : Nat) tbl flt cols dropped,
        (dropVersionColumn (memEnv common G) fuel s).trace[i]?
          = some (Event.dropColumns tbl flt cols dropped) →
        ∃ (j : Nat) (page : List MapStr), i = j + 1 ∧ page ≠ [] ∧
          (dropVersionColumn (memEnv common G) fuel s).trace[j]?
            = some (Event.find common.BKTableNameSetTemplate (Filter.fieldExists "version")
                [common.BKFieldID] 0 step (Except.ok page)) ∧
          tbl = common.BKTableNameSetTemplate ∧
          flt = Filter.fieldIn common.BKFieldID (idsOf G common.BKFieldID page) ∧
          cols = ["version"] ∧ dropped = none) ∧
    (pending "version" s ≠ [] →
      ∃ (page : List MapStr) (s' : List MapStr), page ≠ [] ∧
        (pending "version" s').length < (pending "version" s).length ∧
        Coercible G "version" common.BKFieldID s' ∧
        ∀ fuel, dropVersionColumn (memEnv common G) (fuel + 1) s
          = (dropVersionColumn (memEnv common G) fuel s').after
              [Event.find common.BKTableNameSetTemplate (Filter.fieldExists "version")
                [common.BKFieldID] 0 step (Except.ok page),
               Event.dropColumns common.BKTableNameSetTemplate
                (Filter.fieldIn common.BKFieldID (idsOf G common.BKFieldID page))
                ["version"] none]) := by
  refine ⟨?_, ?_⟩
  · intro fuel hfuel
    exact memLoop_run G common.BKTableNameSetTemplate "version" common.BKFieldID fuel s hco
      hfuel
  · intro hne
    refine ⟨((pending "version" s).take step).map (MapStr.project [common.BKFieldID]),
      afterDrop G "version" common.BKFieldID
        (idsOf G common.BKFieldID ((pending "version" s).take step)) s, ?_,
      memStep_decreases G "version" common.BKFieldID s hco hne,
      coercible_afterDrop G "version" common.BKFieldID _ s hco, ?_⟩
    · intro hnil
      rw [List.map_eq_nil_iff, List.take_eq_nil_iff] at hnil
      rcases hnil with h0 | h0
      · exact absurd h0 (Nat.pos_iff_ne_zero.1 step_pos)
      · exact hne h0
    · intro fuel
      rw [idsOf_project]
      exact memLoop_step G common.BKTableNameSetTemplate "version" common.BKFieldID fuel s
        hco hne

/-- C9 at work on three set templates: the run returns `nil` within 4
iterations, with the trace fetch (3 records), drop, fetch (none), and nothing
left to migrate. -/
theorem drop_version_terminates_witness :
    (dropVersionColumn (memEnv sampleCommon sampleGetInt64) 4 (setTemplates 3)).outcome
      = Outcome.returned none ∧
    pending "version"
      (dropVersionColumn (memEnv sampleCommon sampleGetInt64) 4 (setTemplates 3)).store = [] ∧
    fetchSizes (dropVersionColumn (memEnv sampleCommon sampleGetInt64) 4
      (setTemplates 3)).trace = [3, 0] ∧
    (dropVersionColumn (memEnv sampleCommon sampleGetInt64) 4 (setTemplates 3)).store
      = [⟨[("id", Value.int 0)]⟩, ⟨[("id", Value.int 1)]⟩, ⟨[("id", Value.int 2)]⟩] :=
  ⟨((drop_version_terminates sampleCommon sampleGetInt64 (setTemplates 3)
      (coercible_versionedRecords _ _ _)).1 4 (by decide)).1,
   ((drop_version_terminates sampleCommon sampleGetInt64 (setTemplates 3)
      (coercible_versionedRecords _ _ _)).1 4 (by decide)).2.1,
   by decide, by decide⟩

theorem addCloudIDIndexPlat_spec {σ : Type} (env : MigrateEnv σ) (s : σ) :
    (addCloudIDIndexPlat env s).trace
      = [Event.createIndex env.common.BKTableNameBasePlat (cloudIDIndex env.common)
          (env.db.CreateIndex s env.common.BKTableNameBasePlat (cloudIDIndex env.common)).1] ∧
    (addCloudIDIndexPlat env s).store
      = (env.db.CreateIndex s env.common.BKTableNameBasePlat (cloudIDIndex env.common)).2 ∧
    (∀ err, (addCloudIDIndexPlat env s).outcome = Outcome.returned (some err) ↔
      (env.db.CreateIndex s env.common.BKTableNameBasePlat (cloudIDIndex env.common)).1
        = some err ∧ env.IsDuplicatedIndexErr err = false) ∧
    ((addCloudIDIndexPlat env s).outcome = Outcome.returned none ↔
      ¬ Fatal env
        (env.db.CreateIndex s env.common.BKTableNameBasePlat (cloudIDIndex env.common)).1) := by
  rcases hc : env.db.CreateIndex s env.common.BKTableNameBasePlat (cloudIDIndex env.common)
    with ⟨res, s1⟩
  cases res with
  | none => simp [addCloudIDIndexPlat, Fatal, hc]
  | some e =>
    cases hd : env.IsDuplicatedIndexErr e with
    | true =>
      simp only [addCloudIDIndexPlat, Fatal, hc, hd]
      simp [hd]
    | false =>
      simp only [addCloudIDIndexPlat, Fatal, hc, hd]
      simp [hd]

theorem not_fatal_none {σ : Type} (env : MigrateEnv σ) : ¬ Fatal env none := by
  rintro ⟨e, h, _⟩
  cases h

/-- C10: `addCloudIDIndex` returns an error exactly when the `CreateIndex` on
the host table fails with an error that is not the duplicate-index error, or it
does not and the `CreateIndex` on the cloud-area table fails with such an error;
the error returned is that of the store; after a fatal failure on the host table
the cloud-area table is not touched; otherwise both tables are asked, in that
order.  It returns `nil` exactly when neither `CreateIndex` fails fatally, so a
second run that meets the duplicate-index error on both tables returns `nil`
like the first. -/
theorem add_cloud_id_index_errors {σ : Type} (env : MigrateEnv σ) (s : σ) :
    (∀ err, (addCloudIDIndex env s).outcome = Outcome.returned (some err) ↔
      ((env.db.CreateIndex s env.common.BKTableNameBaseHost (cloudIDIndex env.common)).1
          = some err ∧ env.IsDuplicatedIndexErr err = false) ∨
      (¬ Fatal env
          (env.db.CreateIndex s env.common.BKTableNameBaseHost (cloudIDIndex env.common)).1 ∧
        (env.db.CreateIndex
          (env.db.CreateIndex s env.common.BKTableNameBaseHost (cloudIDIndex env.common)).2
          env.common.BKTableNameBasePlat (cloudIDIndex env.common)).1 = some err ∧
        env.IsDuplicatedIndexErr err = false)) ∧
    ((addCloudIDIndex env s).outcome = Outcome.returned none ↔
      ¬ Fatal env
          (env.db.CreateIndex s env.common.BKTableNameBaseHost (cloudIDIndex env.common)).1 ∧
      ¬ Fatal env
        (env.db.CreateIndex
          (env.db.CreateIndex s env.common.BKTableNameBaseHost (cloudIDIndex env.common)).2
          env.common.BKTableNameBasePlat (cloudIDIndex env.common)).1) ∧
    (Fatal env
        (env.db.CreateIndex s env.common.BKTableNameBaseHost (cloudIDIndex env.common)).1 →
      (addCloudIDIndex env s).trace
        = [Event.createIndex env.common.BKTableNameBaseHost (cloudIDIndex env.common)
            (env.db.CreateIndex s env.common.BKTableNameBaseHost
              (cloudIDIndex env.common)).1] ∧
      (addCloudIDIndex env s).store
        = (env.db.CreateIndex s env.common.BKTableNameBaseHost
            (cloudIDIndex env.common)).2) ∧
    (¬ Fatal env
        (env.db.CreateIndex s env.common.BKTableNameBaseHost (cloudIDIndex env.common)).1 →
      (addCloudIDIndex env s).trace
        = [Event.createIndex env.common.BKTableNameBaseHost (cloudIDIndex env.common)
            (env.db.CreateIndex s env.common.BKTableNameBaseHost
              (cloudIDIndex env.common)).1,
           Event.createIndex env.common.BKTableNameBasePlat (cloudIDIndex env.common)
            (env.db.CreateIndex
              (env.db.CreateIndex s env.common.BKTableNameBaseHost
                (cloudIDIndex env.common)).2
              env.common.BKTableNameBasePlat (cloudIDIndex env.common)).1] ∧
      (addCloudIDIndex env s).store
        = (env.db.CreateIndex
            (env.db.CreateIndex s env.common.BKTableNameBaseHost
              (cloudIDIndex env.common)).2
            env.common.BKTableNameBasePlat (cloudIDIndex env.common)).2) ∧
    (¬ Fatal env
        (env.db.CreateIndex s env.common.BKTableNameBaseHost (cloudIDIndex env.common)).1 →
      ¬ Fatal env
        (env.db.CreateIndex
          (env.db.CreateIndex s env.common.BKTableNameBaseHost (cloudIDIndex env.common)).2
          env.common.BKTableNameBasePlat (cloudIDIndex env.common)).1 →
      (∃ err, (env.db.CreateIndex (addCloudIDIndex env s).store
          env.common.BKTableNameBaseHost (cloudIDIndex env.common)).1 = some err ∧
        env.IsDuplicatedIndexErr err = true) →
      (∃ err, (env.db.CreateIndex
          (env.db.CreateIndex (addCloudIDIndex env s).store
            env.common.BKTableNameBaseHost (cloudIDIndex env.common)).2
          env.common.BKTableNameBasePlat (cloudIDIndex env.common)).1 = some err ∧
        env.IsDuplicatedIndexErr err = true) →
      (addCloudIDIndex env s).outcome = Outcome.returned none ∧
      (addCloudIDIndex env (addCloudIDIndex env s).store).outcome
        = Outcome.returned none) := by
  have key : ∀ s0 : σ,
      (∀ err, (addCloudIDIndex env s0).outcome = Outcome.returned (some err) ↔
        ((env.db.CreateIndex s0 env.common.BKTableNameBaseHost (cloudIDIndex env.common)).1
            = some err ∧ env.IsDuplicatedIndexErr err = false) ∨
        (¬ Fatal env
            (env.db.CreateIndex s0 env.common.BKTableNameBaseHost
              (cloudIDIndex env.common)).1 ∧
          (env.db.CreateIndex
            (env.db.CreateIndex s0 env.common.BKTableNameBaseHost
              (cloudIDIndex env.common)).2
            env.common.BKTableNameBasePlat (cloudIDIndex env.common)).1 = some err ∧
          env.IsDuplicatedIndexErr err = false)) ∧
      ((addCloudIDIndex env s0).outcome = Outcome.returned none ↔
        ¬ Fatal env
            (env.db.CreateIndex s0 env.common.BKTableNameBaseHost
              (cloudIDIndex env.common)).1 ∧
        ¬ Fatal env
          (env.db.CreateIndex
            (env.db.CreateIndex s0 env.common.BKTableNameBaseHost
              (cloudIDIndex env.common)).2
            env.common.BKTableNameBasePlat (cloudIDIndex env.common)).1) ∧
      (Fatal env
          (env.db.CreateIndex s0 env.common.BKTableNameBaseHost
            (cloudIDIndex env.common)).1 →
        (addCloudIDIndex env s0).trace
          = [Event.createIndex env.common.BKTableNameBaseHost (cloudIDIndex env.common)
              (env.db.CreateIndex s0 env.common.BKTableNameBaseHost
                (cloudIDIndex env.common)).1] ∧
        (addCloudIDIndex env s0).store
          = (env.db.CreateIndex s0 env.common.BKTableNameBaseHost
              (cloudIDIndex env.common)).2) ∧
      (¬ Fatal env
          (env.db.CreateIndex s0 env.common.BKTableNameBaseHost
            (cloudIDIndex env.common)).1 →
        (addCloudIDIndex env s0).trace
          = [Event.createIndex env.common.BKTableNameBaseHost (cloudIDIndex env.common)
              (env.db.CreateIndex s0 env.common.BKTableNameBaseHost
                (cloudIDIndex env.common)).1,
             Event.createIndex env.common.BKTableNameBasePlat (cloudIDIndex env.common)
              (env.db.CreateIndex
                (env.db.CreateIndex s0 env.common.BKTableNameBaseHost
                  (cloudIDIndex env.common)).2
                env.common.BKTableNameBasePlat (cloudIDIndex env.common)).1] ∧
        (addCloudIDIndex env s0).store
          = (env.db.CreateIndex
              (env.db.CreateIndex s0 env.common.BKTableNameBaseHost
                (cloudIDIndex env.common)).2
              env.common.BKTableNameBasePlat (cloudIDIndex env.common)).2) := by
    intro s0
    rcases hc : env.db.CreateIndex s0 env.common.BKTableNameBaseHost (cloudIDIndex env.common)
      with ⟨res, s1⟩
    obtain ⟨p1, p2, p3, p4⟩ := addCloudIDIndexPlat_spec env s1
    have hfatal : ∀ e, env.IsDuplicatedIndexErr e = false → Fatal env (some e) :=
      fun e he => ⟨e, rfl, he⟩
    have hnone : ¬ Fatal env (none : Option Err) := by
      rintro ⟨e, h, _⟩
      cases h
    have hdup : ∀ e, env.IsDuplicatedIndexErr e = true → ¬ Fatal env (some e) := by
      rintro e he ⟨e', h1, h2⟩
      cases h1
      rw [he] at h2
      cases h2
    cases res with
    | none =>
      have hrun : addCloudIDIndex env s0 = (addCloudIDIndexPlat env s1).after
          [Event.createIndex env.common.BKTableNameBaseHost (cloudIDIndex env.common) none] := by
        simp only [addCloudIDIndex, hc]
      rw [hrun]
      simp only [Run.after, List.cons_append, List.nil_append, p1]
      refine ⟨?_, ?_, fun h => absurd h hnone, fun _ => ⟨trivial, p2⟩⟩
      · intro err
        rw [p3 err]
        simp [hnone]
      · rw [p4]
        simp [hnone]
    | some e =>
      cases hd : env.IsDuplicatedIndexErr e with
      | true =>
        have hrun : addCloudIDIndex env s0 = (addCloudIDIndexPlat env s1).after
            [Event.createIndex env.common.BKTableNameBaseHost (cloudIDIndex env.common)
              (some e)] := by
          simp only [addCloudIDIndex, hc, hd]
          rfl
        rw [hrun]
        simp only [Run.after, List.cons_append, List.nil_append, p1]
        refine ⟨?_, ?_, fun h => absurd h (hdup e hd), fun _ => ⟨trivial, p2⟩⟩
        · intro err
          rw [p3 err]
          constructor
          · intro h
            exact Or.inr ⟨hdup e hd, h⟩
          · rintro (⟨h1, h2⟩ | ⟨_, h⟩)
            · cases h1
              rw [hd] at h2
              cases h2
            · exact h
        · rw [p4]
          simp [hdup e hd]
      | false =>
        have hrun : addCloudIDIndex env s0 = ⟨Outcome.returned (some e), s1,
            [Event.createIndex env.common.BKTableNameBaseHost (cloudIDIndex env.common)
              (some e)]⟩ := by
          simp only [addCloudIDIndex, hc, hd]
          rfl
        rw [hrun]
        refine ⟨?_, ?_, fun _ => ⟨rfl, rfl⟩, fun h => absurd (hfatal e hd) h⟩
        · intro err
          constructor
          · intro h
            cases h
            exact Or.inl ⟨rfl, hd⟩
          · rintro (⟨h1, _⟩ | ⟨h, _⟩)
            · cases h1
              rfl
            · exact absurd (hfatal e hd) h
        · constructor
          · intro h
            cases h
          · rintro ⟨h, _⟩
            exact absurd (hfatal e hd) h
  obtain ⟨k1, k2, k3, k4⟩ := key s
  refine ⟨k1, k2, k3, k4, ?_⟩
  rintro h1 h2 ⟨e3, h3, hd3⟩ ⟨e4, h4, hd4⟩
  refine ⟨k2.2 ⟨h1, h2⟩, (key _).2.1.2 ⟨?_, ?_⟩⟩
  · rintro ⟨e, he, hd⟩
    rw [h3] at he
    cases he
    rw [hd3] at hd
    cases hd
  · rintro ⟨e, he, hd⟩
    rw [h4] at he
    cases he
    rw [hd4] at hd
    cases hd

/-- C10 at work on the in-memory index store: the first run creates both
indexes, the second run meets the duplicate-index error on both tables, and
both return `nil`. -/
theorem add_cloud_id_index_errors_witness :
    (addCloudIDIndex (memIndexEnv sampleCommon) []).outcome = Outcome.returned none ∧
    (addCloudIDIndex (memIndexEnv sampleCommon) []).store
      = [("cc_HostBase", "bk_cloud_id_1"), ("cc_PlatBase", "bk_cloud_id_1")] ∧
    (memIndexRDB.CreateIndex (addCloudIDIndex (memIndexEnv sampleCommon) []).store
      "cc_HostBase" (cloudIDIndex sampleCommon)).1 = some duplicateIndexErr ∧
    (memIndexRDB.CreateIndex (addCloudIDIndex (memIndexEnv sampleCommon) []).store
      "cc_PlatBase" (cloudIDIndex sampleCommon)).1 = some duplicateIndexErr ∧
    (addCloudIDIndex (memIndexEnv sampleCommon)
      (addCloudIDIndex (memIndexEnv sampleCommon) []).store).outcome
        = Outcome.returned none :=
  ⟨by decide, by decide, by decide, by decide,
   ((add_cloud_id_index_errors (memIndexEnv sampleCommon) []).2.2.2.2
      (show ¬ Fatal (memIndexEnv sampleCommon) none from not_fatal_none _)
      (show ¬ Fatal (memIndexEnv sampleCommon) none from not_fatal_none _)
      ⟨duplicateIndexErr, by decide, by decide⟩
      ⟨duplicateIndexErr, by decide, by decide⟩).2⟩


/-! ## Lemmas on the rows of the adjacency structure -/

namespace GoMap

variable {K V : Type} [DecidableEq K]

theorem map_replace_of_not_mem (l : List (K × V)) (k : K) (v : V)
    (h : k ∉ l.map Prod.fst) :
    l.map (fun p => if p.1 = k then (k, v) else p) = l := by
  induction l with
  | nil => rfl
  | cons p l ih =>
    simp only [List.map_cons, List.mem_cons, not_or] at h
    have hp : ¬ p.1 = k := fun e => h.1 e.symm
    simp only [List.map_cons, hp, if_false]
    rw [ih h.2]

theorem flatMap_set_of_none {β : Type} (m : GoMap K V) (k : K) (v : V) (g : K × V → List β)
    (h : m.get? k = none) :
    (m.set k v).entries.flatMap g = m.entries.flatMap g ++ g (k, v) := by
  unfold set
  rw [h]
  simp

theorem flatMap_replace_perm {β : Type} (l : List (K × V)) (hnd : (l.map Prod.fst).Nodup)
    (k : K) (v w : V) (g : K × V → List β) (extra : List β)
    (h : l.lookup k = some w) (hg : (g (k, v)).Perm (g (k, w) ++ extra)) :
    ((l.map (fun p => if p.1 = k then (k, v) else p)).flatMap g).Perm
      (l.flatMap g ++ extra) := by
  induction l with
  | nil => simp at h
  | cons p l ih =>
    obtain ⟨a, b⟩ := p
    simp only [List.map_cons, List.nodup_cons] at hnd
    by_cases hak : a = k
    · subst hak
      simp only [List.lookup_cons_self, Option.some.injEq] at h
      subst h
      simp only [List.map_cons, if_true, List.flatMap_cons]
      rw [map_replace_of_not_mem l a v hnd.1]
      calc (g (a, v) ++ l.flatMap g).Perm ((g (a, b) ++ extra) ++ l.flatMap g) :=
            hg.append_right _
        _ |>.Perm (g (a, b) ++ (extra ++ l.flatMap g)) := by rw [List.append_assoc]
        _ |>.Perm (g (a, b) ++ (l.flatMap g ++ extra)) :=
            List.Perm.append_left _ List.perm_append_comm
        _ |>.Perm (g (a, b) ++ l.flatMap g ++ extra) := by rw [List.append_assoc]
    · have hka : (k == a) = false := by simpa using fun e => hak e.symm
      simp only [List.lookup_cons, hka] at h
      simp only [List.map_cons, hak, if_false, List.flatMap_cons, List.append_assoc]
      exact List.Perm.append_left _ (ih hnd.2 h)

theorem flatMap_set_perm {β : Type} (m : GoMap K V) (hnd : m.keys.Nodup) (k : K) (v w : V)
    (g : K × V → List β) (extra : List β) (h : m.get? k = some w)
    (hg : (g (k, v)).Perm (g (k, w) ++ extra)) :
    ((m.set k v).entries.flatMap g).Perm (m.entries.flatMap g ++ extra) := by
  unfold set
  rw [h]
  exact flatMap_replace_perm m.entries hnd k v w g extra h hg

end GoMap

theorem rowsOfSetModule_set (h : Int) (sm : GoMap Int (List Int)) (hnd : sm.keys.Nodup)
    (s m : Int) :
    (rowsOfSetModule h (sm.set s (sm.getD s [] ++ [m]))).Perm
      (rowsOfSetModule h sm ++ [({ HostID := h, SetID := s, ModuleID := m } : ModuleHost)]) := by
  unfold rowsOfSetModule
  cases hget : sm.get? s with
  | none =>
    rw [GoMap.flatMap_set_of_none sm s _ _ hget]
    simp [GoMap.getD, hget]
  | some ms =>
    apply GoMap.flatMap_set_perm sm hnd s _ ms _ _ hget
    simp [GoMap.getD, hget]

theorem rowsOfRelation_step (acc : RelationAcc) (r : ModuleHost)
    (hnd : acc.relation.keys.Nodup)
    (hinner : ∀ sm, acc.relation.get? r.HostID = some sm → sm.keys.Nodup) :
    (rowsOfRelation (foldRelation acc r).relation).Perm (rowsOfRelation acc.relation ++ [r]) := by
  unfold rowsOfRelation foldRelation
  cases hget : acc.relation.get? r.HostID with
  | none =>
    simp only
    rw [GoMap.flatMap_set_of_none acc.relation r.HostID _ _ hget]
    have hone : rowsOfSetModule r.HostID
        ((GoMap.empty : GoMap Int (List Int)).set r.SetID
          ((GoMap.empty : GoMap Int (List Int)).getD r.SetID [] ++ [r.ModuleID])) = [r] := by
      cases r
      rfl
    simp only [hone]
    exact List.Perm.refl _
  | some sm =>
    simp only
    apply GoMap.flatMap_set_perm acc.relation hnd r.HostID _ sm _ _ hget
    have hstep := rowsOfSetModule_set r.HostID sm (hinner sm hget) r.SetID r.ModuleID
    cases r
    exact hstep

theorem keys_nodup_step (acc : RelationAcc) (r : ModuleHost) (hnd : acc.relation.keys.Nodup) :
    (foldRelation acc r).relation.keys.Nodup := by
  unfold foldRelation
  cases acc.relation.get? r.HostID with
  | none => exact GoMap.nodup_keys_set _ _ _ hnd
  | some sm => exact GoMap.nodup_keys_set _ _ _ hnd

theorem rowsOfRelation_foldl (rows done : List ModuleHost) (acc : RelationAcc)
    (hinv : RelationInv acc.relation done) (hnd : acc.relation.keys.Nodup)
    (hperm : (rowsOfRelation acc.relation).Perm done) :
    (rows.foldl foldRelation acc).relation.keys.Nodup ∧
    (rowsOfRelation (rows.foldl foldRelation acc).relation).Perm (done ++ rows) := by
  induction rows generalizing done acc with
  | nil => exact ⟨hnd, by simpa using hperm⟩
  | cons r rows ih =>
    have hinner : ∀ sm, acc.relation.get? r.HostID = some sm → sm.keys.Nodup := by
      intro sm hsm
      rcases hinv r.HostID with ⟨hnone, _⟩ | ⟨sm', hsome, _, hnd', _⟩
      · rw [hnone] at hsm
        cases hsm
      · rw [hsome] at hsm
        cases hsm
        exact hnd'
    have hstep := rowsOfRelation_step acc r hnd hinner
    have := ih (done ++ [r]) (foldRelation acc r) (relationInv_step _ _ acc rfl r hinv)
      (keys_nodup_step acc r hnd) (hstep.trans (List.Perm.append_right _ hperm))
    simpa using this

theorem rowsOfRelation_foldRelations (rows : List ModuleHost) :
    (foldRelations rows).relation.keys.Nodup ∧
    (rowsOfRelation (foldRelations rows).relation).Perm rows := by
  have := rowsOfRelation_foldl rows [] ⟨[], [], GoMap.empty⟩
    (by intro h; left; exact ⟨rfl, by simp⟩)
    (by simp [GoMap.keys, GoMap.empty])
    (by simp [rowsOfRelation, GoMap.empty])
  simpa [foldRelations] using this

/-! ## Claim on the relation fold -/

/-- C11: the adjacency structure built by the relation fold loses and invents
nothing.  For every list of relation rows, the rows obtained by enumerating
every module id under every set under every host of the structure are, as a
multiset, the relation rows themselves, so every row occurs in the structure as
often as among the rows; a host key is present, once, if and only if some row
has that host id; and every set map has each set key once and maps no set key to
an empty module list. -/
theorem relation_fold_is_lossless (rows : List ModuleHost) :
    (Multiset.ofList (rowsOfRelation (foldRelations rows).relation)
      = Multiset.ofList rows) ∧
    (∀ t : ModuleHost,
      (rowsOfRelation (foldRelations rows).relation).count t = rows.count t) ∧
    (foldRelations rows).relation.keys.Nodup ∧
    (∀ h : Int, h ∈ (foldRelations rows).relation.keys ↔ ∃ r ∈ rows, r.HostID = h) ∧
    (∀ h : Int, ((foldRelations rows).relation.get? h).isSome ↔ ∃ r ∈ rows, r.HostID = h) ∧
    (∀ (h : Int) (setModule : GoMap Int (List Int)),
      (h, setModule) ∈ (foldRelations rows).relation.entries →
        setModule.keys.Nodup ∧
        ∀ (s : Int) (moduleIDs : List Int),
          (s, moduleIDs) ∈ setModule.entries → moduleIDs ≠ []) := by
  obtain ⟨hnd, hperm⟩ := rowsOfRelation_foldRelations rows
  have hinv := relationInv_foldRelations rows
  have hkey : ∀ h : Int,
      ((foldRelations rows).relation.get? h).isSome ↔ ∃ r ∈ rows, r.HostID = h := by
    intro h
    rcases hinv h with ⟨hnone, hno⟩ | ⟨sm, hsome, hex, _, _⟩
    · rw [hnone]
      constructor
      · intro hc; cases hc
      · rintro ⟨r, hr, hh⟩
        exact absurd hh (hno r hr)
    · rw [hsome]
      exact ⟨fun _ => hex, fun _ => rfl⟩
  refine ⟨Multiset.coe_eq_coe.2 hperm, fun t => hperm.count_eq t, hnd, ?_, hkey, ?_⟩
  · intro h
    rw [GoMap.mem_keys_iff]
    exact hkey h
  · intro h setModule hmem
    have hlook := (GoMap.mem_entries_iff _ hnd h setModule).1 hmem
    rcases hinv h with ⟨hnone, _⟩ | ⟨sm, hsome, _, hsnd, hget⟩
    · rw [hnone] at hlook
      cases hlook
    · rw [hsome] at hlook
      cases hlook
      refine ⟨hsnd, ?_⟩
      intro s moduleIDs hs
      have hl := (GoMap.mem_entries_iff _ hsnd s moduleIDs).1 hs
      rw [hget s] at hl
      unfold entryOf at hl
      by_cases hm : modulesOf rows h s = []
      · simp [hm] at hl
      · simp only [hm, if_false, Option.some.injEq] at hl
        rw [← hl]
        exact hm

/-- C11 at work on rows in which (1, 10, 100) occurs twice: the structure holds
module 100 twice under set 10 of host 1, and enumerating it gives that row
twice. -/
theorem relation_fold_is_lossless_witness :
    (foldRelations repeatedRows).relation
      = ⟨[(1, ⟨[(10, [100, 100]), (11, [100])]⟩), (2, ⟨[(20, [200])]⟩)]⟩ ∧
    repeatedRows.count ⟨1, 10, 100⟩ = 2 ∧
    (rowsOfRelation (foldRelations repeatedRows).relation).count ⟨1, 10, 100⟩
      = repeatedRows.count ⟨1, 10, 100⟩ :=
  ⟨by decide, by decide, (relation_fold_is_lossless repeatedRows).2.1 ⟨1, 10, 100⟩⟩

end CMDB
